import Mathlib

/-!
# Football league simulation: embedding of `main.go`

A shallow embedding of the match simulation and standings engine of `main.go`.

* Go `int` is the 64-bit two's-complement integer.  The arithmetic of `predictStandings`
  (its accumulators, the product and quotient of the adjusted goal difference, the sum
  under `float64(...)`) is modelled with wrap-around, through `wrap64`.  The table
  updater adds one-digit scores to the stored columns and is modelled over `Int`.
* The SQLite store is modelled as a record of its two tables, each a list of rows in
  insertion order.  A `panic(err)` of the source is the outcome `Result.panic`.
* `math/rand` is modelled as a stream of raw draws: `rand.Intn n` takes the next raw
  draw modulo `n`, so every outcome in `0 .. n-1` occurs for some stream.
* The unbounded reshuffle loop of `PlayWeekMatches` carries a fuel argument; running out
  of fuel is the outcome `Result.timeout`.
-/

namespace League

/-! ## Data model (lines 17-43) -/

/-- The Go struct `Team`. -/
structure Team where
  ID : Int
  Name : String
  Points : Int
  Played : Int
  Won : Int
  Drawn : Int
  Lost : Int
  GF : Int
  GA : Int
  GD : Int
  Strength : Int
deriving DecidableEq, Repr

/-- The Go struct `Match`. -/
structure Match where
  ID : Int
  HomeTeamID : Int
  AwayTeamID : Int
  HomeScore : Int
  AwayScore : Int
  Week : Int
deriving DecidableEq, Repr

/-- The store: the rows of the table `teams` and of the table `matches` (field
`matchLog`), in insertion order. -/
structure DB where
  teams : List Team
  matchLog : List Match
deriving DecidableEq, Repr

/-- Outcome of running a piece of the program: a value, a Go `panic`, or an exhausted
fuel budget (the loop was still running). -/
inductive Result (α : Type) where
  | ok (a : α)
  | panic
  | timeout
deriving DecidableEq, Repr

/-- Sequencing of outcomes. -/
def Result.bind {α β : Type} (r : Result α) (f : α → Result β) : Result β :=
  match r with
  | .ok a => f a
  | .panic => .panic
  | .timeout => .timeout

/-! ## Table updater (lines 456-489) -/

/-- The `SELECT ... FROM teams WHERE id = ?` of `updateTeamStats`, read with `QueryRow`:
the first row with that id, if any. -/
def selectTeam (db : DB) (teamID : Int) : Option Team :=
  db.teams.find? (fun t => t.ID == teamID)

/-- Lines 469-482 of `updateTeamStats`: the new statistics of the scanned row. -/
def bumpStats (row : Team) (goalsFor goalsAgainst : Int) : Team :=
  let team := { row with Played := row.Played + 1 }
  let team := { team with GF := team.GF + goalsFor }
  let team := { team with GA := team.GA + goalsAgainst }
  let team := { team with GD := team.GF - team.GA }
  if goalsFor > goalsAgainst then
    { team with Won := team.Won + 1, Points := team.Points + 3 }
  else if goalsFor = goalsAgainst then
    { team with Drawn := team.Drawn + 1, Points := team.Points + 1 }
  else
    { team with Lost := team.Lost + 1 }

/-- The `UPDATE teams SET points = ?, ..., strength = ? WHERE id = ?` of
`updateTeamStats`: every row with the id takes the nine columns of `team`, and keeps its
own id and name. -/
def writeStats (team : Team) (t : Team) : Team :=
  if t.ID = team.ID then
    { t with Points := team.Points, Played := team.Played, Won := team.Won,
             Drawn := team.Drawn, Lost := team.Lost, GF := team.GF, GA := team.GA,
             GD := team.GD, Strength := team.Strength }
  else t

/-- The function `updateTeamStats` (lines 461-489).  It panics when no row has the id. -/
def updateTeamStats (db : DB) (teamID goalsFor goalsAgainst : Int) : Result DB :=
  match selectTeam db teamID with
  | none => .panic
  | some row =>
    let team := bumpStats row goalsFor goalsAgainst
    .ok { db with teams := db.teams.map (writeStats team) }

/-- The function `updateLeagueTable` (lines 456-459). -/
def updateLeagueTable (db : DB) (m : Match) : Result DB :=
  (updateTeamStats db m.HomeTeamID m.HomeScore m.AwayScore).bind
    (fun db1 => updateTeamStats db1 m.AwayTeamID m.AwayScore m.HomeScore)

/-- Applying `updateLeagueTable` for a sequence of matches, in order. -/
def applyMatches (db : DB) : List Match → Result DB
  | [] => .ok db
  | m :: ms => (updateLeagueTable db m).bind (fun db1 => applyMatches db1 ms)

/-- A team id is registered when some row of `teams` carries it. -/
def registered (db : DB) (teamID : Int) : Prop :=
  ∃ t ∈ db.teams, t.ID = teamID

instance (db : DB) (teamID : Int) : Decidable (registered db teamID) := by
  unfold registered; infer_instance

/-- Every statistic of the row is zero, as after `SeedDatabase`. -/
def zeroed (t : Team) : Prop :=
  t.Points = 0 ∧ t.Played = 0 ∧ t.Won = 0 ∧ t.Drawn = 0 ∧ t.Lost = 0 ∧
    t.GF = 0 ∧ t.GA = 0 ∧ t.GD = 0

instance (t : Team) : Decidable (zeroed t) := by
  unfold zeroed; infer_instance

/-- The three equations of the Team invariant. -/
def statsOk (t : Team) : Prop :=
  t.Played = t.Won + t.Drawn + t.Lost ∧ t.GD = t.GF - t.GA ∧ t.Points = 3 * t.Won + t.Drawn

instance (t : Team) : Decidable (statsOk t) := by
  unfold statsOk; infer_instance

/-! ## Recomputation from the raw match log (the words of the round-trip property) -/

/-- The team appears in the match, as home or as away side. -/
def appearsIn (teamID : Int) (m : Match) : Bool :=
  m.HomeTeamID == teamID || m.AwayTeamID == teamID

/-- The team's own score in a match it appears in. -/
def ownScore (teamID : Int) (m : Match) : Int :=
  if m.HomeTeamID = teamID then m.HomeScore else m.AwayScore

/-- The opponent's score in a match the team appears in. -/
def oppScore (teamID : Int) (m : Match) : Int :=
  if m.HomeTeamID = teamID then m.AwayScore else m.HomeScore

/-- Played, recomputed: the number of logged matches the team appears in. -/
def playedFromLog (teamID : Int) (log : List Match) : Int :=
  (log.filter (appearsIn teamID)).length

/-- Points, recomputed: three per logged match in which the team's score is higher, one
per logged match of the team with equal scores. -/
def pointsFromLog (teamID : Int) (log : List Match) : Int :=
  3 * ((log.filter (fun m => appearsIn teamID m &&
          decide (ownScore teamID m > oppScore teamID m))).length : Int) +
    ((log.filter (fun m => appearsIn teamID m &&
          decide (ownScore teamID m = oppScore teamID m))).length : Int)

/-- Goal difference, recomputed: the sum over the team's logged matches of own score
minus opponent score. -/
def gdFromLog (teamID : Int) (log : List Match) : Int :=
  ((log.filter (appearsIn teamID)).map (fun m => ownScore teamID m - oppScore teamID m)).sum

/-- The stored row agrees with the recomputation from `log`. -/
def agreesWithLog (log : List Match) (t : Team) : Prop :=
  t.Played = playedFromLog t.ID log ∧ t.Points = pointsFromLog t.ID log ∧
    t.GD = gdFromLog t.ID log

instance (log : List Match) (t : Team) : Decidable (agreesWithLog log t) := by
  unfold agreesWithLog; infer_instance

/-- The invariant carried through the log: agreement of the stored columns, and of the
stored goals-for minus goals-against, with the recomputation. -/
def tracksLog (log : List Match) (t : Team) : Prop :=
  agreesWithLog log t ∧ t.GF - t.GA = gdFromLog t.ID log

/-- The sum of the points column over all rows of `teams`. -/
def totalPoints (db : DB) : Int :=
  (db.teams.map (fun t => t.Points)).sum

/-- The number of decisive results (scores differ) in a list of matches. -/
def decisive (ms : List Match) : Nat :=
  (ms.filter (fun m => decide (m.HomeScore ≠ m.AwayScore))).length

/-! ## Row constructors and the sample registry -/

/-- A row of `teams` as `SeedDatabase` inserts it: the id, the name, the strength, and
every statistic zero. -/
def seedRow (id : Int) (name : String) (strength : Int) : Team :=
  { ID := id, Name := name, Points := 0, Played := 0, Won := 0, Drawn := 0, Lost := 0,
    GF := 0, GA := 0, GD := 0, Strength := strength }

/-- The four-team registry of the spec's scenario, strengths 3, 2, 4, 1. -/
def demoDB : DB :=
  { teams := [seedRow 1 "Chelsea" 3, seedRow 2 "Arsenal" 2,
              seedRow 3 "Manchester City" 4, seedRow 4 "Liverpool" 1],
    matchLog := [] }

/-- A match row with the given teams, scores and week (id 0, as in a Go struct that was
not read back from the store). -/
def mkMatch (home away homeScore awayScore week : Int) : Match :=
  { ID := 0, HomeTeamID := home, AwayTeamID := away, HomeScore := homeScore,
    AwayScore := awayScore, Week := week }

/-! ## Randomness (`math/rand`) -/

/-- The source of randomness: the raw draws still to come, the next one at index 0.
Reseeding with the clock (`rand.Seed(time.Now().UnixNano())`) makes the draws arbitrary,
which is what an arbitrary stream stands for. -/
abbrev Rand : Type := Nat → Nat

/-- The stream after its first draw was consumed. -/
def Rand.rest (r : Rand) : Rand := fun i => r (i + 1)

/-- The stream whose first draws are those of `l` (and 0 afterwards). -/
def Rand.ofList (l : List Nat) : Rand := fun i => l.getD i 0

/-- The call `rand.Intn(n)`: a value in `0 .. n-1`, and the stream that remains. -/
def Intn (n : Nat) (r : Rand) : Nat × Rand := (r 0 % n, r.rest)

/-- The swap `teams[i], teams[j] = teams[j], teams[i]` passed to `rand.Shuffle`. -/
def swapAt {α : Type} (l : List α) (i j : Nat) : List α :=
  match l[i]?, l[j]? with
  | some a, some b => (l.set i b).set j a
  | _, _ => l

/-- The loop of `rand.Shuffle` (Fisher-Yates, as in the Go library):
`for i := n-1; i > 0; i-- { j := Intn(i+1); swap(i, j) }`, entered at index `i`. -/
def shuffleFrom {α : Type} : Nat → List α → Rand → List α × Rand
  | 0, l, r => (l, r)
  | i + 1, l, r => shuffleFrom i (swapAt l (i + 1) (Intn (i + 2) r).1) (Intn (i + 2) r).2

/-- The call `rand.Shuffle(len(teams), swap)`. -/
def Shuffle {α : Type} (l : List α) (r : Rand) : List α × Rand :=
  shuffleFrom (l.length - 1) l r

/-! ## Match simulator (lines 402-454) -/

/-- Lines 408-423 of `playMatch`: the first draw of the two scores (home, away). -/
def firstDraw (homeStrength awayStrength : Int) (r : Rand) : (Int × Int) × Rand :=
  if homeStrength > awayStrength then
    let homeScore : Int := (Intn 5 r).1
    let awayScore : Int := (Intn 4 (Intn 5 r).2).1
    if awayScore > homeScore then ((awayScore, homeScore), (Intn 4 (Intn 5 r).2).2)
    else ((homeScore, awayScore), (Intn 4 (Intn 5 r).2).2)
  else if awayStrength > homeStrength then
    let homeScore : Int := (Intn 4 r).1
    let awayScore : Int := (Intn 5 (Intn 4 r).2).1
    if homeScore > awayScore then ((awayScore, homeScore), (Intn 5 (Intn 4 r).2).2)
    else ((homeScore, awayScore), (Intn 5 (Intn 4 r).2).2)
  else
    ((((Intn 5 r).1 : Int), ((Intn 5 (Intn 5 r).2).1 : Int)), (Intn 5 (Intn 5 r).2).2)

/-- Lines 425-434 of `playMatch`: the re-draw when the first draw is 0-0. -/
def redraw (homeStrength awayStrength : Int) (s : Int × Int) (r : Rand) :
    (Int × Int) × Rand :=
  if s.1 = 0 ∧ s.2 = 0 then
    if homeStrength > awayStrength then
      ((((Intn 4 r).1 : Int) + 1, s.2), (Intn 4 r).2)
    else if homeStrength < awayStrength then
      ((s.1, ((Intn 4 r).1 : Int) + 1), (Intn 4 r).2)
    else
      ((((Intn 4 r).1 : Int) + 1, ((Intn 4 (Intn 4 r).2).1 : Int) + 1), (Intn 4 (Intn 4 r).2).2)
  else (s, r)

/-- Lines 405-434 of `playMatch`: the final scores (home, away) and the remaining stream. -/
def drawScores (homeStrength awayStrength : Int) (r : Rand) : (Int × Int) × Rand :=
  redraw homeStrength awayStrength (firstDraw homeStrength awayStrength r).1
    (firstDraw homeStrength awayStrength r).2

/-- The id that `AUTOINCREMENT` gives the next row of `matches`: one more than the
largest id in the table. -/
def nextMatchID (db : DB) : Int :=
  (db.matchLog.map (fun m => m.ID)).foldr max 0 + 1

/-- The function `saveMatch` (lines 448-454): one `INSERT INTO matches`.  The store is
taken to be available, so the insert does not fail. -/
def saveMatch (db : DB) (m : Match) : DB :=
  { db with matchLog := db.matchLog ++ [{ m with ID := nextMatchID db }] }

/-- The function `playMatch` (lines 402-446). -/
def playMatch (db : DB) (homeTeamID awayTeamID week homeStrength awayStrength : Int)
    (r : Rand) : Result (DB × Rand) :=
  let s := drawScores homeStrength awayStrength r
  let m : Match :=
    { ID := 0, HomeTeamID := homeTeamID, AwayTeamID := awayTeamID,
      HomeScore := s.1.1, AwayScore := s.1.2, Week := week }
  (updateLeagueTable (saveMatch db m) m).bind (fun db2 => .ok (db2, s.2))

/-! ## Pairing generator (lines 335-400) -/

/-- The function `getPreviousWeekMatches` (lines 370-391): the rows of `matches` with
the given week, of which only the two team ids are scanned. -/
def getPreviousWeekMatches (db : DB) (week : Int) : List Match :=
  (db.matchLog.filter (fun m => m.Week == week)).map
    (fun m => mkMatch m.HomeTeamID m.AwayTeamID 0 0 0)

/-- The function `isRepeatMatch` (lines 393-400). -/
def isRepeatMatch (previousWeekMatches : List Match) (homeTeamID awayTeamID : Int) : Bool :=
  previousWeekMatches.any (fun m =>
    (m.HomeTeamID == homeTeamID && m.AwayTeamID == awayTeamID) ||
    (m.HomeTeamID == awayTeamID && m.AwayTeamID == homeTeamID))

/-- The two entries `teams[i]`, `teams[i+1]`; `none` stands for Go's panic on an index out
of range. -/
def pairAt (teams : List Team) (i : Nat) : Option (Team × Team) :=
  match teams[i]?, teams[i + 1]? with
  | some a, some b => some (a, b)
  | _, _ => none

/-- Lines 362-364 of `PlayWeekMatches`: reshuffle the whole list while the pair at
`i`, `i+1` repeats a previous-week match.  The first argument after `i` is the fuel: it
bounds the number of reshuffles; the source has no bound. -/
def reshuffleLoop (previousWeekMatches : List Match) (i : Nat) :
    Nat → List Team → Rand → Result (List Team × Rand)
  | 0, teams, r =>
    match pairAt teams i with
    | none => .panic
    | some p =>
      if isRepeatMatch previousWeekMatches p.1.ID p.2.ID then .timeout
      else .ok (teams, r)
  | f + 1, teams, r =>
    match pairAt teams i with
    | none => .panic
    | some p =>
      if isRepeatMatch previousWeekMatches p.1.ID p.2.ID then
        reshuffleLoop previousWeekMatches i f (Shuffle teams r).1 (Shuffle teams r).2
      else .ok (teams, r)

/-- Lines 360-367 of `PlayWeekMatches`: the walk `for i := 0; i < len(teams); i += 2`,
entered at index `i`; `n` bounds the number of iterations of the walk. -/
def pairLoop (fuel : Nat) (previousWeekMatches : List Match) (week : Int) :
    Nat → Nat → List Team → DB → Rand → Result (DB × Rand)
  | 0, i, teams, db, r => if i < teams.length then .timeout else .ok (db, r)
  | n + 1, i, teams, db, r =>
    if i < teams.length then
      if i + 1 < teams.length then
        (reshuffleLoop previousWeekMatches i fuel teams r).bind (fun p =>
          match pairAt p.1 i with
          | none => .panic
          | some ab =>
            (playMatch db ab.1.ID ab.2.ID week ab.1.Strength ab.2.Strength p.2).bind (fun q =>
              pairLoop fuel previousWeekMatches week n (i + 2) p.1 q.1 q.2))
      else pairLoop fuel previousWeekMatches week n (i + 2) teams db r
    else .ok (db, r)

/-- The rows read by `SELECT id, name, strength FROM teams` into fresh `Team` structs. -/
def scanTeams (db : DB) : List Team :=
  db.teams.map (fun t => seedRow t.ID t.Name t.Strength)

/-- The function `PlayWeekMatches` (lines 335-368). -/
def PlayWeekMatches (fuel : Nat) (db : DB) (week : Int) (r : Rand) : Result (DB × Rand) :=
  let teams := scanTeams db
  let previousWeekMatches := getPreviousWeekMatches db (week - 1)
  let s := Shuffle teams r
  pairLoop fuel previousWeekMatches week teams.length 0 s.1 db s.2

/-- Running `PlayWeekMatches` once for each week of a list, in order. -/
def playWeeks (fuel : Nat) : List Int → DB → Rand → Result (DB × Rand)
  | [], db, r => .ok (db, r)
  | w :: ws, db, r => (PlayWeekMatches fuel db w r).bind (fun p => playWeeks fuel ws p.1 p.2)

/-! ## Seeding (lines 266-333) -/

/-- The function `SetupDatabase` (lines 266-320): both tables dropped and created empty. -/
def SetupDatabase : DB := { teams := [], matchLog := [] }

/-- The id that `AUTOINCREMENT` gives the next row of `teams`. -/
def nextTeamID (db : DB) : Int :=
  (db.teams.map (fun t => t.ID)).foldr max 0 + 1

/-- One turn of the loop of `SeedDatabase`: a strength `rand.Intn(4) + 1` and the insert
of the row with zero statistics. -/
def seedOne (acc : DB × Rand) (name : String) : DB × Rand :=
  ({ acc.1 with teams :=
      acc.1.teams ++ [seedRow (nextTeamID acc.1) name (((Intn 4 acc.2).1 : Int) + 1)] },
   (Intn 4 acc.2).2)

/-- The function `SeedDatabase` (lines 322-333).  The closing `UPDATE ... WHERE points
IS NULL OR ...` changes nothing: no column of the model is NULL. -/
def SeedDatabase (db : DB) (r : Rand) : DB × Rand :=
  ["Chelsea", "Arsenal", "Manchester City", "Liverpool"].foldl seedOne (db, r)

/-! ## The probability space of one match between unequal sides -/

/-- The stronger side's final score is at least the weaker side's final score. -/
def strongerNotBehind (homeStrength awayStrength : Int) (r : Rand) : Bool :=
  if homeStrength > awayStrength then
    decide ((drawScores homeStrength awayStrength r).1.2 ≤
      (drawScores homeStrength awayStrength r).1.1)
  else
    decide ((drawScores homeStrength awayStrength r).1.1 ≤
      (drawScores homeStrength awayStrength r).1.2)

/-- The equally likely outcomes of the three independent uniform draws of a match
between unequal sides: `rand.Intn(5)` of the stronger side, `rand.Intn(4)` of the weaker
side, and `rand.Intn(4)` of the 0-0 re-draw. -/
def drawOutcomes : List (Nat × Nat × Nat) :=
  (List.range 5).flatMap (fun x => (List.range 4).flatMap (fun y =>
    (List.range 4).map (fun z => (x, y, z))))

/-- The stream that delivers an outcome in the order `playMatch` draws: the home side
first, then the away side, then the re-draw. -/
def streamOf (homeStrength awayStrength : Int) (o : Nat × Nat × Nat) : Rand :=
  if homeStrength > awayStrength then Rand.ofList [o.1, o.2.1, o.2.2]
  else Rand.ofList [o.2.1, o.1, o.2.2]

/-- The number of outcomes in which the stronger side is not behind. -/
def favourable (homeStrength awayStrength : Int) : Nat :=
  (drawOutcomes.filter (fun o =>
    strongerNotBehind homeStrength awayStrength (streamOf homeStrength awayStrength o))).length

/-! ## Standings projector (lines 491-553) -/

/-- The Go struct `TeamPrediction`; the `float64` probability is read as an exact
rational. -/
structure TeamPrediction where
  Name : String
  Probability : ℚ
deriving DecidableEq

/-- The rows read by `SELECT id, name, points, gd FROM teams` into fresh `Team` structs. -/
def scanStandings (db : DB) : List Team :=
  db.teams.map (fun t =>
    { ID := t.ID, Name := t.Name, Points := t.Points, Played := 0, Won := 0, Drawn := 0,
      Lost := 0, GF := 0, GA := 0, GD := t.GD, Strength := 0 })

/-- The `less` function given to `sort.Slice` (lines 512-517). -/
def ranksBefore (a b : Team) : Prop :=
  if a.Points = b.Points then a.GD > b.GD else a.Points > b.Points

instance : DecidableRel ranksBefore := by
  intro a b; unfold ranksBefore; infer_instance

/-- The call `sort.Slice(teams, less)`: the library promises a list sorted by `less` and
leaves the order of ties open; an insertion sort stands for it. -/
def sortTeams (teams : List Team) : List Team :=
  teams.insertionSort ranksBefore

/-- What a Go `int` holds after an operation whose exact result is `x`: the value of `x`
reduced into the range -2^63 .. 2^63 - 1. -/
def wrap64 (x : Int) : Int :=
  (x + 9223372036854775808) % 18446744073709551616 - 9223372036854775808

/-- Go's `a + b` on `int`. -/
def goAdd (a b : Int) : Int := wrap64 (a + b)

/-- Go's `-a` on `int`. -/
def goNeg (a : Int) : Int := wrap64 (-a)

/-- Go's `a * b` on `int`. -/
def goMul (a b : Int) : Int := wrap64 (a * b)

/-- Go's `a / b` on `int` for a non-zero divisor: the quotient truncated toward zero. -/
def goDiv (a b : Int) : Int := wrap64 (a.tdiv b)

/-- The accumulator `totalPoints` of the loop of lines 522-529. -/
def accPoints (teams : List Team) : Int :=
  teams.foldl (fun acc team => goAdd acc team.Points) 0

/-- The accumulator `totalPositiveGD` of the loop of lines 522-529. -/
def accPositiveGD (teams : List Team) : Int :=
  teams.foldl (fun acc team => if team.GD ≥ 0 then goAdd acc team.GD else acc) 0

/-- The accumulator `totalNegativeGD` of the loop of lines 522-529. -/
def accNegativeGD (teams : List Team) : Int :=
  teams.foldl (fun acc team => if team.GD ≥ 0 then acc else goAdd acc (goNeg team.GD)) 0

/-- The exact sum of the points, which `totalPoints` holds while it stays in the 64-bit
range. -/
def sumPoints (teams : List Team) : Int :=
  (teams.map (fun t => t.Points)).sum

/-- The exact sum of the goal differences that are at least 0, which `totalPositiveGD`
holds while it stays in the 64-bit range. -/
def sumPositiveGD (teams : List Team) : Int :=
  (teams.map (fun t => if t.GD ≥ 0 then t.GD else 0)).sum

/-- The exact sum of the negated goal differences below 0, which `totalNegativeGD` holds
while it stays in the 64-bit range. -/
def sumNegativeGD (teams : List Team) : Int :=
  (teams.map (fun t => if t.GD ≥ 0 then 0 else -t.GD)).sum

/-- The absolute value of an integer. -/
def magnitude (x : Int) : Int := if x ≥ 0 then x else -x

/-- The exact sum of the absolute values of the points. -/
def sumAbsPoints (teams : List Team) : Int :=
  (teams.map (fun t => magnitude t.Points)).sum

/-- Lines 533-538 in Go's `int` arithmetic: the product and the divisor wrap, the
division truncates toward zero and panics on a zero divisor. -/
def adjustedGD (gd totalPositiveGD totalNegativeGD : Int) : Result Int :=
  if goAdd totalPositiveGD totalNegativeGD = 0 then .panic
  else if gd ≥ 0 then
    .ok (goDiv (goMul gd totalPositiveGD) (goAdd totalPositiveGD totalNegativeGD))
  else
    .ok (goDiv (goMul (goNeg gd) totalNegativeGD) (goAdd totalPositiveGD totalNegativeGD))

/-- Line 540: the raw probability of a team.  The sum `team.Points+adjustedGD` is a Go
`int` sum; the conversions and the float operations are read as exact. -/
def rawProbability (points adjusted totalPoints : Int) : ℚ :=
  ((goAdd points adjusted : Int) : ℚ) / (totalPoints : ℚ) * 100

/-- The loop of lines 532-542 over the sorted teams. -/
def rawPredictions (totalPoints totalPositiveGD totalNegativeGD : Int) :
    List Team → Result (List TeamPrediction)
  | [] => .ok []
  | team :: rest =>
    (adjustedGD team.GD totalPositiveGD totalNegativeGD).bind (fun adjusted =>
      (rawPredictions totalPoints totalPositiveGD totalNegativeGD rest).bind (fun ps =>
        .ok ({ Name := team.Name,
               Probability := rawProbability team.Points adjusted totalPoints } :: ps)))

/-- Lines 544-547: the sum of the raw probabilities. -/
def normalizeFactor (predictions : List TeamPrediction) : ℚ :=
  (predictions.map (fun p => p.Probability)).sum

/-- Lines 548-550: every probability times 100 over the normalisation factor.  For a
factor 0 Go's floats give an infinity or NaN, which a rational does not represent; no
theorem below reads the quotient in that case. -/
def normalize (predictions : List TeamPrediction) : List TeamPrediction :=
  predictions.map (fun p =>
    { p with Probability := p.Probability * 100 / normalizeFactor predictions })

/-- The function `predictStandings` (lines 491-553). -/
def predictStandings (db : DB) : Result (List TeamPrediction) :=
  let teams := sortTeams (scanStandings db)
  (rawPredictions (accPoints teams) (accPositiveGD teams) (accNegativeGD teams) teams).bind
    (fun predictions => .ok (normalize predictions))

/-- The sum of the probabilities of a list of predictions. -/
def sumProbabilities (predictions : List TeamPrediction) : ℚ :=
  (predictions.map (fun p => p.Probability)).sum

/-! ## The simulate request (lines 68-116) -/

/-- What `simulateHandler` answers: the 400 of an unparsable week, or the page. -/
inductive Response where
  | badRequest
  | page
deriving DecidableEq, Repr

/-- The function `simulateHandler` (lines 68-116).  `week` is the outcome of
`strconv.Atoi` on the query parameter (`none` for its error).  The table and the match
results are rendered by reads only; the predictions of week 4 onward call
`predictStandings`. -/
def simulateHandler (fuel : Nat) (week : Option Int) (db : DB) (r : Rand) :
    Result (Response × DB × Rand) :=
  match week with
  | none => .ok (.badRequest, db, r)
  | some week =>
    (PlayWeekMatches fuel db week r).bind (fun p =>
      (if week ≥ 4 then (predictStandings p.1).bind (fun _ => .ok ()) else .ok ()).bind
        (fun _ =>
          if week ≥ 5 then .ok (.page, SeedDatabase SetupDatabase p.2)
          else .ok (.page, p.1, p.2)))

/-- The adjusted goal difference of lines 535/537 computed without wrap-around; the code
gives this value while the products stay in the 64-bit range. -/
def exactAdjusted (gd totalPositiveGD totalNegativeGD : Int) : Int :=
  if gd ≥ 0 then (gd * totalPositiveGD).tdiv (totalPositiveGD + totalNegativeGD)
  else (-gd * totalNegativeGD).tdiv (totalPositiveGD + totalNegativeGD)

/-- The raw probability of line 540 computed without wrap-around. -/
def exactProbability (points adjusted totalPoints : Int) : ℚ :=
  ((points + adjusted : Int) : ℚ) / (totalPoints : ℚ) * 100

/-- The registry is small enough that no `int` operation of `predictStandings` wraps: the
absolute points sum to less than 2^62 and the absolute goal differences to less than
2^31. -/
def withinRange (db : DB) : Prop :=
  sumAbsPoints db.teams < 4611686018427387904 ∧
    sumPositiveGD db.teams + sumNegativeGD db.teams < 2147483648

instance (db : DB) : Decidable (withinRange db) := by
  unfold withinRange; infer_instance

/-! ## Fixtures of a week -/

/-- The rows of `matches` with the given week. -/
def matchesOfWeek (db : DB) (week : Int) : List Match :=
  db.matchLog.filter (fun m => m.Week == week)

/-- The number of matches of `ms` in which the team appears. -/
def appearances (teamID : Int) (ms : List Match) : Nat :=
  (ms.filter (appearsIn teamID)).length

/-- The fixtures `ms` form a perfect matching of the registry: every team appears in
exactly one of them. -/
def perfectMatching (db : DB) (ms : List Match) : Prop :=
  ∀ t ∈ db.teams, appearances t.ID ms = 1

instance (db : DB) (ms : List Match) : Decidable (perfectMatching db ms) := by
  unfold perfectMatching; infer_instance

/-- The home and away ids of a list of matches. -/
def pairsOf (ms : List Match) : List (Int × Int) :=
  ms.map (fun m => (m.HomeTeamID, m.AwayTeamID))

/-- The weeks 1, ..., w. -/
def weeksUpTo (w : Nat) : List Int :=
  (List.range w).map (fun (i : Nat) => (i : Int) + 1)

/-- Forgetting the random stream of an outcome. -/
def Result.map {α β : Type} (f : α → β) (r : Result α) : Result β :=
  r.bind (fun a => .ok (f a))

/-! ## Sample registries -/

/-- A registry of six teams of equal strength, all statistics zero, no match played. -/
def sixTeamDB : DB :=
  { teams := [seedRow 1 "A" 2, seedRow 2 "B" 2, seedRow 3 "C" 2, seedRow 4 "D" 2,
              seedRow 5 "E" 2, seedRow 6 "F" 2],
    matchLog := [] }

/-! ## The four-team season -/

/-- The outcome is a value: the run finished without panic and within the fuel. -/
def Result.isOk {α : Type} : Result α → Bool
  | .ok _ => true
  | .panic => false
  | .timeout => false

/-- Two fixtures that pair off the teams 1, 2, 3, 4. -/
def Fixture4 (ms : List Match) : Prop :=
  ∃ m1 m2, ms = [m1, m2] ∧
    [m1.HomeTeamID, m1.AwayTeamID, m2.HomeTeamID, m2.AwayTeamID].Perm [1, 2, 3, 4]

/-- The state of the four-team season after `w` weeks were played in order. -/
structure SeasonInv (w : Nat) (db : DB) : Prop where
  ids : db.teams.map (fun t => t.ID) = [1, 2, 3, 4]
  tracks : ∀ t ∈ db.teams, tracksLog db.matchLog t
  played : ∀ x ∈ ([1, 2, 3, 4] : List Int), playedFromLog x db.matchLog = w
  weeks : ∀ m ∈ db.matchLog, 1 ≤ m.Week ∧ m.Week ≤ w
  logLength : db.matchLog.length = 2 * w
  fixture : 1 ≤ w → Fixture4 (matchesOfWeek db w)
  fresh : 1 ≤ w → ∀ m ∈ matchesOfWeek db w,
    isRepeatMatch (matchesOfWeek db ((w : Int) - 1)) m.HomeTeamID m.AwayTeamID = false

/-- The random stream of the worked five-week season: the raw draws, consumed in order by
the four strength draws of the seeding and then, week by week, by the shuffles and the
score draws. -/
def seasonStream : Rand :=
  Rand.ofList [2, 1, 3, 0, 3, 2, 1, 2, 1, 0, 0, 3, 1, 0, 1, 2, 2, 1, 3, 0, 1, 0, 4, 1, 0, 2,
    3, 0, 1, 1, 1, 3, 2, 2, 2, 0, 0, 3, 1, 1]

/-! ## Registries in which every pairing is a repeat -/

/-- A registry of two teams, all statistics zero, no match played. -/
def twoTeamDB : DB :=
  { teams := [seedRow 1 "Chelsea" 3, seedRow 2 "Arsenal" 2], matchLog := [] }

/-- The two-team registry after its week 1, a 2-1 home win of team 1 over team 2. -/
def twoTeamsMet : DB :=
  { teams :=
      [{ seedRow 1 "Chelsea" 3 with Points := 3, Played := 1, Won := 1, GF := 2, GA := 1, GD := 1 },
       { seedRow 2 "Arsenal" 2 with Played := 1, Lost := 1, GF := 1, GA := 2, GD := -1 }],
    matchLog := [{ mkMatch 1 2 2 1 1 with ID := 1 }] }

/-- The four-team registry after week 1 was simulated three times, the three runs
pairing 1-2 and 3-4, then 1-3 and 2-4, then 1-4 and 3-2: the matches of week 1 cover all
six unordered pairs. -/
def allPairsMet : DB :=
  { teams :=
      [{ seedRow 1 "Chelsea" 3 with
           Points := 6, Played := 3, Won := 2, Lost := 1, GF := 5, GA := 4, GD := 1 },
       { seedRow 2 "Arsenal" 2 with
           Points := 3, Played := 3, Won := 1, Lost := 2, GF := 4, GA := 5, GD := -1 },
       { seedRow 3 "Manchester City" 4 with
           Points := 9, Played := 3, Won := 3, GF := 6, GA := 3, GD := 3 },
       { seedRow 4 "Liverpool" 1 with
           Played := 3, Lost := 3, GF := 3, GA := 6, GD := -3 }],
    matchLog :=
      [{ mkMatch 1 2 2 1 1 with ID := 1 }, { mkMatch 3 4 2 1 1 with ID := 2 },
       { mkMatch 1 3 1 2 1 with ID := 3 }, { mkMatch 2 4 2 1 1 with ID := 4 },
       { mkMatch 1 4 2 1 1 with ID := 5 }, { mkMatch 3 2 2 1 1 with ID := 6 }] }

/-- The loop condition of line 362 holds for the pair at `i`, `i+1` of `teams`. -/
def pairRepeats (previousWeekMatches : List Match) (teams : List Team) (i : Nat) : Prop :=
  ∃ p, pairAt teams i = some p ∧ isRepeatMatch previousWeekMatches p.1.ID p.2.ID = true

/-- A registry with a team of very negative goal difference and no points: points
12, 6, 4, 0 and goal differences +20, +3, -3, -20. -/
def lopsidedStandings : DB :=
  { teams :=
      [{ seedRow 1 "Chelsea" 3 with
           Points := 12, Played := 4, Won := 4, GF := 20, GA := 0, GD := 20 },
       { seedRow 2 "Arsenal" 2 with
           Points := 6, Played := 4, Won := 2, Lost := 2, GF := 8, GA := 5, GD := 3 },
       { seedRow 3 "Manchester City" 4 with
           Points := 4, Played := 4, Won := 1, Drawn := 1, Lost := 2, GF := 5, GA := 8, GD := -3 },
       { seedRow 4 "Liverpool" 1 with
           Played := 4, Lost := 4, GF := 0, GA := 20, GD := -20 }],
    matchLog := [] }

/-- A registry of two teams at the edge of the 64-bit range: points 3037000499 and 0,
goal differences 0 and -3037000500. -/
def wrapDrawn : DB :=
  { teams :=
      [{ seedRow 1 "Chelsea" 3 with Points := 3037000499 },
       { seedRow 2 "Arsenal" 2 with GA := 3037000500, GD := -3037000500 }],
    matchLog := [] }

/-- A registry of two teams at the edge of the 64-bit range: points 4000000000 and 0,
goal differences +3037000500 and -3037000500. -/
def wrapStandings : DB :=
  { teams :=
      [{ seedRow 1 "Chelsea" 3 with Points := 4000000000, GF := 3037000500, GD := 3037000500 },
       { seedRow 2 "Arsenal" 2 with GA := 3037000500, GD := -3037000500 }],
    matchLog := [] }

/-! ## Strength changes (lines 170-205) -/

/-- The statement `UPDATE teams SET strength = ? WHERE name = ?` of
`changeStrengthsHandler`: every row with the name takes the strength. -/
def setStrength (db : DB) (team : String) (strength : Int) : DB :=
  { db with teams :=
      db.teams.map (fun t => if t.Name = team then { t with Strength := strength } else t) }

/-- One turn of the loop of lines 192-201: an entry with a strength outside 1..4 is
skipped. -/
def changeOne (db : DB) (entry : String × Int) : DB :=
  if entry.2 < 1 ∨ entry.2 > 4 then db else setStrength db entry.1 entry.2

/-- The function `changeStrengthsHandler` (lines 170-205).  `body` is the outcome of
decoding the JSON body into a `map[string]int`: `none` for the decoding error (answered
with 400), otherwise the entries in the order the `range` loop visits them, which Go
leaves open.  The keys of a Go map are pairwise distinct. -/
def changeStrengthsHandler (body : Option (List (String × Int))) (db : DB) : DB :=
  match body with
  | none => db
  | some strengths => strengths.foldl changeOne db

/-- A step that changes the registry after seeding: a change-strengths request, or a call
of `updateTeamStats`. -/
inductive Step where
  | change (body : Option (List (String × Int)))
  | update (teamID goalsFor goalsAgainst : Int)

/-- Running a sequence of steps, in order. -/
def runSteps (db : DB) : List Step → Result DB
  | [] => .ok db
  | .change body :: rest => runSteps (changeStrengthsHandler body db) rest
  | .update teamID goalsFor goalsAgainst :: rest =>
    (updateTeamStats db teamID goalsFor goalsAgainst).bind (fun db1 => runSteps db1 rest)

/-- The step names a team of the seeded registry (ids 1..4); a request always does. -/
def Step.onSeededTeam : Step → Prop
  | .change _ => True
  | .update teamID _ _ => teamID ∈ ([1, 2, 3, 4] : List Int)

instance (s : Step) : Decidable s.onSeededTeam := by
  cases s <;> unfold Step.onSeededTeam <;> infer_instance

/-- Every stored strength is one of 1, 2, 3, 4. -/
def strengthsInRange (db : DB) : Prop :=
  ∀ t ∈ db.teams, 1 ≤ t.Strength ∧ t.Strength ≤ 4

instance (db : DB) : Decidable (strengthsInRange db) := by
  unfold strengthsInRange; infer_instance

/-! # Theorems -/

/-! ## Table updater: general lemmas -/

theorem selectTeam_isSome {db : DB} {teamID : Int} (h : registered db teamID) :
    ∃ row, selectTeam db teamID = some row ∧ row ∈ db.teams ∧ row.ID = teamID := by
  obtain ⟨t, ht, hid⟩ := h
  unfold selectTeam
  cases hf : db.teams.find? (fun t => t.ID == teamID) with
  | none =>
    rw [List.find?_eq_none] at hf
    exact absurd (by simpa using hid) (hf t ht)
  | some row =>
    refine ⟨row, rfl, List.mem_of_find?_eq_some hf, ?_⟩
    simpa using List.find?_some hf

theorem selectTeam_some {db : DB} {teamID : Int} {row : Team}
    (h : selectTeam db teamID = some row) : row ∈ db.teams ∧ row.ID = teamID := by
  unfold selectTeam at h
  exact ⟨List.mem_of_find?_eq_some h, by simpa using List.find?_some h⟩

theorem writeStats_ID (team t : Team) : (writeStats team t).ID = t.ID := by
  unfold writeStats; split <;> rfl

theorem bumpStats_ID (row : Team) (gf ga : Int) : (bumpStats row gf ga).ID = row.ID := by
  unfold bumpStats; simp only []; split_ifs <;> rfl

theorem statsOk_bumpStats {row : Team} (gf ga : Int) (h : statsOk row) :
    statsOk (bumpStats row gf ga) := by
  obtain ⟨h1, _, h3⟩ := h
  unfold bumpStats statsOk
  split_ifs <;> (refine ⟨?_, ?_, ?_⟩ <;> dsimp only <;> omega)

theorem statsOk_writeStats {team t : Team} (hteam : statsOk team) (ht : statsOk t) :
    statsOk (writeStats team t) := by
  unfold writeStats
  split
  · exact hteam
  · exact ht

theorem updateTeamStats_ok {db : DB} {teamID : Int} (gf ga : Int)
    (h : registered db teamID) :
    ∃ row, selectTeam db teamID = some row ∧ row ∈ db.teams ∧ row.ID = teamID ∧
      updateTeamStats db teamID gf ga =
        .ok { db with teams := db.teams.map (writeStats (bumpStats row gf ga)) } := by
  obtain ⟨row, hsel, hmem, hid⟩ := selectTeam_isSome h
  refine ⟨row, hsel, hmem, hid, ?_⟩
  unfold updateTeamStats
  rw [hsel]

theorem registered_map_writeStats {db : DB} (team : Team) (x : Int) :
    registered { db with teams := db.teams.map (writeStats team) } x ↔ registered db x := by
  unfold registered
  constructor
  · rintro ⟨t, ht, hid⟩
    obtain ⟨u, hu, rfl⟩ := List.mem_map.1 ht
    exact ⟨u, hu, by rw [← hid, writeStats_ID]⟩
  · rintro ⟨t, ht, hid⟩
    exact ⟨writeStats team t, List.mem_map.2 ⟨t, ht, rfl⟩, by rw [writeStats_ID, hid]⟩

theorem zeroed_statsOk {t : Team} (h : zeroed t) : statsOk t := by
  obtain ⟨h1, h2, h3, h4, h5, h6, h7, h8⟩ := h
  unfold statsOk
  omega

/-- One call of `updateTeamStats` for a registered id returns, keeps the set of registered
ids, and keeps the Team invariant on every row. -/
theorem updateTeamStats_statsOk {db : DB} {teamID : Int} (gf ga : Int)
    (hall : ∀ t ∈ db.teams, statsOk t) (h : registered db teamID) :
    ∃ db1, updateTeamStats db teamID gf ga = .ok db1 ∧ (∀ t ∈ db1.teams, statsOk t) ∧
      (∀ x, registered db1 x ↔ registered db x) ∧ db1.matchLog = db.matchLog := by
  obtain ⟨row, _, hmem, _, hup⟩ := updateTeamStats_ok gf ga h
  refine ⟨_, hup, ?_, fun x => registered_map_writeStats _ x, rfl⟩
  intro t ht
  obtain ⟨u, hu, rfl⟩ := List.mem_map.1 ht
  exact statsOk_writeStats (statsOk_bumpStats gf ga (hall row hmem)) (hall u hu)

theorem updateLeagueTable_statsOk {db : DB} (m : Match)
    (hall : ∀ t ∈ db.teams, statsOk t)
    (hh : registered db m.HomeTeamID) (ha : registered db m.AwayTeamID) :
    ∃ db2, updateLeagueTable db m = .ok db2 ∧ (∀ t ∈ db2.teams, statsOk t) ∧
      (∀ x, registered db2 x ↔ registered db x) ∧ db2.matchLog = db.matchLog := by
  obtain ⟨db1, h1, hall1, hreg1, hlog1⟩ :=
    updateTeamStats_statsOk m.HomeScore m.AwayScore hall hh
  obtain ⟨db2, h2, hall2, hreg2, hlog2⟩ :=
    updateTeamStats_statsOk m.AwayScore m.HomeScore hall1 ((hreg1 _).2 ha)
  refine ⟨db2, ?_, hall2, fun x => (hreg2 x).trans (hreg1 x), hlog2.trans hlog1⟩
  unfold updateLeagueTable
  rw [h1]
  exact h2

theorem applyMatches_statsOk (ms : List Match) :
    ∀ db : DB, (∀ t ∈ db.teams, statsOk t) →
      (∀ m ∈ ms, registered db m.HomeTeamID ∧ registered db m.AwayTeamID) →
      ∃ db2, applyMatches db ms = .ok db2 ∧ (∀ t ∈ db2.teams, statsOk t) := by
  induction ms with
  | nil => intro db hall _; exact ⟨db, rfl, hall⟩
  | cons m ms ih =>
    intro db hall hreg
    obtain ⟨hh, ha⟩ := hreg m (List.mem_cons_self _ _)
    obtain ⟨db1, h1, hall1, hreg1, _⟩ := updateLeagueTable_statsOk m hall hh ha
    obtain ⟨db2, h2, hall2⟩ := ih db1 hall1 (fun x hx =>
      ⟨(hreg1 _).2 (hreg x (List.mem_cons_of_mem _ hx)).1,
       (hreg1 _).2 (hreg x (List.mem_cons_of_mem _ hx)).2⟩)
    refine ⟨db2, ?_, hall2⟩
    show (updateLeagueTable db m).bind _ = _
    rw [h1]
    exact h2

/-! ## C1: the Team invariant -/

/-- C1. From a registry whose rows all have zeroed statistics, applying
`updateLeagueTable` for any finite sequence of matches between registered teams returns,
and afterwards every row satisfies played = won + drawn + lost,
goal-difference = goals-for - goals-against and points = 3 * won + drawn.
Equivalently, one call of `updateTeamStats` (any registered team, any goals for and
against) returns and keeps the three equations on every row. -/
theorem table_invariant (db : DB) (ms : List Match)
    (hzero : ∀ t ∈ db.teams, zeroed t)
    (hreg : ∀ m ∈ ms, registered db m.HomeTeamID ∧ registered db m.AwayTeamID) :
    (∃ db2, applyMatches db ms = .ok db2 ∧ ∀ t ∈ db2.teams, statsOk t) ∧
    (∀ (d : DB) (teamID goalsFor goalsAgainst : Int),
      (∀ t ∈ d.teams, statsOk t) → registered d teamID →
      ∃ d1, updateTeamStats d teamID goalsFor goalsAgainst = .ok d1 ∧
        ∀ t ∈ d1.teams, statsOk t) := by
  constructor
  · exact applyMatches_statsOk ms db (fun t ht => zeroed_statsOk (hzero t ht)) hreg
  · intro d teamID gf ga hall h
    obtain ⟨d1, h1, hall1, _⟩ := updateTeamStats_statsOk gf ga hall h
    exact ⟨d1, h1, hall1⟩

/-- C1 at the four-team registry, for a 2-1 home win followed by a 0-0 draw. -/
theorem table_invariant_witness :
    (∃ db2, applyMatches demoDB [mkMatch 1 2 2 1 1, mkMatch 3 4 0 0 1] = .ok db2 ∧
      ∀ t ∈ db2.teams, statsOk t) ∧
    (∀ (d : DB) (teamID goalsFor goalsAgainst : Int),
      (∀ t ∈ d.teams, statsOk t) → registered d teamID →
      ∃ d1, updateTeamStats d teamID goalsFor goalsAgainst = .ok d1 ∧
        ∀ t ∈ d1.teams, statsOk t) :=
  table_invariant demoDB [mkMatch 1 2 2 1 1, mkMatch 3 4 0 0 1] (by decide) (by decide)

/-! ## C5: round trip with the match log -/

theorem playedFromLog_snoc (x : Int) (log : List Match) (m : Match) :
    playedFromLog x (log ++ [m]) = playedFromLog x log + (if appearsIn x m then 1 else 0) := by
  unfold playedFromLog
  rw [List.filter_append, List.length_append]
  by_cases h : appearsIn x m <;> simp [List.filter, h]

theorem gdFromLog_snoc (x : Int) (log : List Match) (m : Match) :
    gdFromLog x (log ++ [m]) =
      gdFromLog x log + (if appearsIn x m then ownScore x m - oppScore x m else 0) := by
  unfold gdFromLog
  rw [List.filter_append, List.map_append, List.sum_append]
  by_cases h : appearsIn x m <;> simp [List.filter, h]

theorem pointsFromLog_snoc (x : Int) (log : List Match) (m : Match) :
    pointsFromLog x (log ++ [m]) =
      pointsFromLog x log +
        (if appearsIn x m then
          (if ownScore x m > oppScore x m then 3
           else if ownScore x m = oppScore x m then 1 else 0)
         else 0) := by
  unfold pointsFromLog
  rw [List.filter_append, List.length_append, List.filter_append, List.length_append]
  by_cases h : appearsIn x m
  · rcases lt_trichotomy (ownScore x m) (oppScore x m) with h1 | h1 | h1
    · have h2 : ¬ ownScore x m > oppScore x m := by omega
      have h3 : ¬ ownScore x m = oppScore x m := by omega
      simp [List.filter, h, h2, h3]
    · have h2 : ¬ ownScore x m > oppScore x m := by omega
      simp [List.filter, h, h1]
      omega
    · have h3 : ¬ ownScore x m = oppScore x m := by omega
      simp [List.filter, h, h1, h3]
      omega
  · simp [List.filter, h]

theorem writeStats_of_ne {team t : Team} (h : t.ID ≠ team.ID) : writeStats team t = t := by
  unfold writeStats; rw [if_neg h]

theorem bumpStats_Played (row : Team) (gf ga : Int) :
    (bumpStats row gf ga).Played = row.Played + 1 := by
  unfold bumpStats; split_ifs <;> rfl

theorem bumpStats_GF (row : Team) (gf ga : Int) :
    (bumpStats row gf ga).GF = row.GF + gf := by
  unfold bumpStats; split_ifs <;> rfl

theorem bumpStats_GA (row : Team) (gf ga : Int) :
    (bumpStats row gf ga).GA = row.GA + ga := by
  unfold bumpStats; split_ifs <;> rfl

theorem bumpStats_GD (row : Team) (gf ga : Int) :
    (bumpStats row gf ga).GD = row.GF + gf - (row.GA + ga) := by
  unfold bumpStats; split_ifs <;> rfl

theorem bumpStats_Points (row : Team) (gf ga : Int) :
    (bumpStats row gf ga).Points =
      row.Points + (if gf > ga then 3 else if gf = ga then 1 else 0) := by
  unfold bumpStats; split_ifs <;> simp

theorem bumpStats_Strength (row : Team) (gf ga : Int) :
    (bumpStats row gf ga).Strength = row.Strength := by
  unfold bumpStats; split_ifs <;> rfl

theorem zeroed_tracksLog {t : Team} (h : zeroed t) : tracksLog [] t := by
  obtain ⟨h1, h2, h3, h4, h5, h6, h7, h8⟩ := h
  simp [tracksLog, agreesWithLog, playedFromLog, pointsFromLog, gdFromLog, h1, h2, h6, h7, h8]

theorem tracksLog_writeStats {log : List Match} {team t : Team}
    (hteam : tracksLog log team) (hid : t.ID = team.ID) :
    tracksLog log (writeStats team t) := by
  unfold writeStats
  rw [if_pos hid]
  unfold tracksLog agreesWithLog at hteam ⊢
  dsimp only
  rw [hid]
  exact hteam

theorem tracksLog_other {log : List Match} {t : Team} (m : Match)
    (ht : tracksLog log t) (hh : t.ID ≠ m.HomeTeamID) (ha : t.ID ≠ m.AwayTeamID) :
    tracksLog (log ++ [m]) t := by
  have happ : appearsIn t.ID m = false := by
    simp [appearsIn, Ne.symm hh, Ne.symm ha]
  unfold tracksLog agreesWithLog at ht ⊢
  rw [playedFromLog_snoc, pointsFromLog_snoc, gdFromLog_snoc, happ]
  simpa using ht

theorem tracksLog_bump_home {log : List Match} {row : Team} (m : Match)
    (hrow : tracksLog log row) (hid : row.ID = m.HomeTeamID) :
    tracksLog (log ++ [m]) (bumpStats row m.HomeScore m.AwayScore) := by
  have happ : appearsIn row.ID m = true := by simp [appearsIn, hid]
  have hown : ownScore row.ID m = m.HomeScore := by simp [ownScore, hid]
  have hopp : oppScore row.ID m = m.AwayScore := by simp [oppScore, hid]
  obtain ⟨⟨h1, h2, h3⟩, h4⟩ := hrow
  unfold tracksLog agreesWithLog
  rw [bumpStats_ID, bumpStats_Played, bumpStats_Points, bumpStats_GD, bumpStats_GF,
    bumpStats_GA, playedFromLog_snoc, pointsFromLog_snoc, gdFromLog_snoc, happ, hown, hopp]
  simp only [if_true]
  refine ⟨⟨by omega, by omega, by omega⟩, by omega⟩

theorem tracksLog_bump_away {log : List Match} {row : Team} (m : Match)
    (hrow : tracksLog log row) (hid : row.ID = m.AwayTeamID)
    (hne : m.HomeTeamID ≠ m.AwayTeamID) :
    tracksLog (log ++ [m]) (bumpStats row m.AwayScore m.HomeScore) := by
  have happ : appearsIn row.ID m = true := by simp [appearsIn, hid]
  have hown : ownScore row.ID m = m.AwayScore := by simp [ownScore, hid, hne]
  have hopp : oppScore row.ID m = m.HomeScore := by simp [oppScore, hid, hne]
  obtain ⟨⟨h1, h2, h3⟩, h4⟩ := hrow
  unfold tracksLog agreesWithLog
  rw [bumpStats_ID, bumpStats_Played, bumpStats_Points, bumpStats_GD, bumpStats_GF,
    bumpStats_GA, playedFromLog_snoc, pointsFromLog_snoc, gdFromLog_snoc, happ, hown, hopp]
  simp only [if_true]
  refine ⟨⟨by omega, by omega, by omega⟩, by omega⟩

/-- One match between two distinct registered teams keeps every row in step with the log
extended by that match. -/
theorem updateLeagueTable_tracks {db : DB} {log : List Match} (m : Match)
    (hall : ∀ t ∈ db.teams, tracksLog log t)
    (hh : registered db m.HomeTeamID) (ha : registered db m.AwayTeamID)
    (hne : m.HomeTeamID ≠ m.AwayTeamID) :
    ∃ db2, updateLeagueTable db m = .ok db2 ∧ (∀ t ∈ db2.teams, tracksLog (log ++ [m]) t) ∧
      (∀ x, registered db2 x ↔ registered db x) := by
  obtain ⟨row1, _, hmem1, hid1, hup1⟩ := updateTeamStats_ok m.HomeScore m.AwayScore hh
  have ha1 := (@registered_map_writeStats db
    (bumpStats row1 m.HomeScore m.AwayScore) m.AwayTeamID).2 ha
  obtain ⟨row2, _, hmem2, hid2, hup2⟩ := updateTeamStats_ok m.AwayScore m.HomeScore ha1
  refine ⟨{ teams := (db.teams.map (writeStats (bumpStats row1 m.HomeScore m.AwayScore))).map
              (writeStats (bumpStats row2 m.AwayScore m.HomeScore)),
            matchLog := db.matchLog }, ?_, ?_, ?_⟩
  · unfold updateLeagueTable
    rw [hup1]
    exact hup2
  · -- the row scanned for the away side is an untouched row of the old table
    obtain ⟨u, hu, hu2⟩ := List.mem_map.1 hmem2
    have huid : u.ID = m.AwayTeamID := by rw [← hid2, ← hu2, writeStats_ID]
    have hrow2 : row2 = u := by
      rw [← hu2]
      apply writeStats_of_ne
      rw [bumpStats_ID, huid, hid1]
      exact Ne.symm hne
    intro t ht
    obtain ⟨w, hw, rfl⟩ := List.mem_map.1 ht
    obtain ⟨v, hv, rfl⟩ := List.mem_map.1 hw
    by_cases c1 : v.ID = m.HomeTeamID
    · rw [writeStats_of_ne (t := writeStats _ v)]
      · exact tracksLog_writeStats (tracksLog_bump_home m (hall row1 hmem1) hid1)
          (by rw [bumpStats_ID, c1, hid1])
      · rw [writeStats_ID, bumpStats_ID, c1, hid2]
        exact hne
    · rw [writeStats_of_ne (t := v) (by rw [bumpStats_ID, hid1]; exact c1)]
      by_cases c2 : v.ID = m.AwayTeamID
      · refine tracksLog_writeStats (tracksLog_bump_away m ?_ ?_ hne)
          (by rw [bumpStats_ID, c2, hid2])
        · rw [hrow2]; exact hall u hu
        · exact hid2
      · rw [writeStats_of_ne (by rw [bumpStats_ID, hid2]; exact c2)]
        exact tracksLog_other m (hall v hv) c1 c2
  · intro x
    exact (registered_map_writeStats _ x).trans (registered_map_writeStats _ x)

theorem applyMatches_tracks (ms : List Match) :
    ∀ (db : DB) (log : List Match), (∀ t ∈ db.teams, tracksLog log t) →
      (∀ m ∈ ms, registered db m.HomeTeamID ∧ registered db m.AwayTeamID ∧
        m.HomeTeamID ≠ m.AwayTeamID) →
      ∃ db2, applyMatches db ms = .ok db2 ∧ ∀ t ∈ db2.teams, tracksLog (log ++ ms) t := by
  induction ms with
  | nil => intro db log hall _; exact ⟨db, rfl, by simpa using hall⟩
  | cons m ms ih =>
    intro db log hall hreg
    obtain ⟨hh, ha, hne⟩ := hreg m (List.mem_cons_self _ _)
    obtain ⟨db1, h1, hall1, hreg1⟩ := updateLeagueTable_tracks m hall hh ha hne
    obtain ⟨db2, h2, hall2⟩ := ih db1 (log ++ [m]) hall1 (fun x hx =>
      have hx3 := hreg x (List.mem_cons_of_mem _ hx)
      ⟨(hreg1 _).2 hx3.1, (hreg1 _).2 hx3.2.1, hx3.2.2⟩)
    refine ⟨db2, ?_, by simpa using hall2⟩
    show (updateLeagueTable db m).bind _ = _
    rw [h1]
    exact h2

/-- C5. For every list of matches, each between two distinct registered teams, applied
once each by `updateLeagueTable` to a registry with zeroed statistics, the run returns and
every row's stored played, points and goal difference equal the values recomputed from
the raw match list. -/
theorem table_round_trip (db : DB) (ms : List Match)
    (hzero : ∀ t ∈ db.teams, zeroed t)
    (hreg : ∀ m ∈ ms, registered db m.HomeTeamID ∧ registered db m.AwayTeamID ∧
      m.HomeTeamID ≠ m.AwayTeamID) :
    ∃ db2, applyMatches db ms = .ok db2 ∧
      ∀ t ∈ db2.teams, t.Played = playedFromLog t.ID ms ∧
        t.Points = pointsFromLog t.ID ms ∧ t.GD = gdFromLog t.ID ms := by
  obtain ⟨db2, h, hall⟩ :=
    applyMatches_tracks ms db [] (fun t ht => zeroed_tracksLog (hzero t ht)) hreg
  refine ⟨db2, h, fun t ht => ?_⟩
  have := (hall t ht).1
  simpa [agreesWithLog] using this

/-- C5 at the four-team registry, for three matches of which team 1 plays two. -/
theorem table_round_trip_witness :
    ∃ db2, applyMatches demoDB [mkMatch 1 2 2 1 1, mkMatch 3 4 0 0 1, mkMatch 3 1 1 4 2]
        = .ok db2 ∧
      ∀ t ∈ db2.teams,
        t.Played = playedFromLog t.ID [mkMatch 1 2 2 1 1, mkMatch 3 4 0 0 1, mkMatch 3 1 1 4 2] ∧
        t.Points = pointsFromLog t.ID [mkMatch 1 2 2 1 1, mkMatch 3 4 0 0 1, mkMatch 3 1 1 4 2] ∧
        t.GD = gdFromLog t.ID [mkMatch 1 2 2 1 1, mkMatch 3 4 0 0 1, mkMatch 3 1 1 4 2] :=
  table_round_trip demoDB [mkMatch 1 2 2 1 1, mkMatch 3 4 0 0 1, mkMatch 3 1 1 4 2]
    (by decide) (by decide)

/-! ## C6: points conservation -/

theorem map_writeStats_ID (team : Team) (l : List Team) :
    (l.map (writeStats team)).map (fun t => t.ID) = l.map (fun t => t.ID) := by
  rw [List.map_map]
  apply List.map_congr_left
  intro t _
  exact writeStats_ID team t

theorem map_writeStats_of_not_mem (team : Team) (l : List Team)
    (h : team.ID ∉ l.map (fun t => t.ID)) : l.map (writeStats team) = l := by
  induction l with
  | nil => rfl
  | cons x xs ih =>
    rw [List.map_cons, List.mem_cons, not_or] at h
    rw [List.map_cons, ih h.2, writeStats_of_ne (Ne.symm h.1)]

theorem writeStats_Points_of_eq {team t : Team} (h : t.ID = team.ID) :
    (writeStats team t).Points = team.Points := by
  unfold writeStats; rw [if_pos h]

/-- With unique ids, the write of `updateTeamStats` changes the points total by the
change of the one row it scanned. -/
theorem sum_points_writeStats (team row : Team) (hid : team.ID = row.ID) (l : List Team) :
    (l.map (fun t => t.ID)).Nodup → row ∈ l →
    ((l.map (writeStats team)).map (fun t => t.Points)).sum =
      (l.map (fun t => t.Points)).sum + (team.Points - row.Points) := by
  induction l with
  | nil => intro _ h; simp at h
  | cons x xs ih =>
    intro hnd hmem
    rw [List.map_cons, List.nodup_cons] at hnd
    rcases List.mem_cons.1 hmem with rfl | hxs
    · rw [List.map_cons, map_writeStats_of_not_mem team xs (by rw [hid]; exact hnd.1)]
      simp only [List.map_cons, List.sum_cons]
      rw [writeStats_Points_of_eq hid.symm]
      omega
    · have hne : x.ID ≠ team.ID := by
        intro hx
        apply hnd.1
        rw [hx, hid]
        exact List.mem_map.2 ⟨row, hxs, rfl⟩
      simp only [List.map_cons, List.sum_cons]
      rw [writeStats_of_ne hne, ih hnd.2 hxs]
      omega

theorem updateTeamStats_points {db : DB} {teamID : Int} (gf ga : Int)
    (hnd : (db.teams.map (fun t => t.ID)).Nodup) (h : registered db teamID) :
    ∃ db1, updateTeamStats db teamID gf ga = .ok db1 ∧
      totalPoints db1 = totalPoints db + (if gf > ga then 3 else if gf = ga then 1 else 0) ∧
      db1.teams.map (fun t => t.ID) = db.teams.map (fun t => t.ID) := by
  obtain ⟨row, _, hmem, _, hup⟩ := updateTeamStats_ok gf ga h
  refine ⟨_, hup, ?_, map_writeStats_ID _ _⟩
  unfold totalPoints
  dsimp only
  rw [sum_points_writeStats _ row (bumpStats_ID row gf ga) db.teams hnd hmem, bumpStats_Points]
  omega

theorem registered_iff_mem_ids (db : DB) (x : Int) :
    registered db x ↔ x ∈ db.teams.map (fun t => t.ID) := by
  unfold registered
  rw [List.mem_map]

theorem updateLeagueTable_points {db : DB} (m : Match)
    (hnd : (db.teams.map (fun t => t.ID)).Nodup)
    (hh : registered db m.HomeTeamID) (ha : registered db m.AwayTeamID) :
    ∃ db2, updateLeagueTable db m = .ok db2 ∧
      totalPoints db2 = totalPoints db + (if m.HomeScore ≠ m.AwayScore then 3 else 2) ∧
      db2.teams.map (fun t => t.ID) = db.teams.map (fun t => t.ID) := by
  obtain ⟨db1, h1, hp1, hids1⟩ := updateTeamStats_points m.HomeScore m.AwayScore hnd hh
  have ha1 : registered db1 m.AwayTeamID := by
    rw [registered_iff_mem_ids, hids1, ← registered_iff_mem_ids]; exact ha
  obtain ⟨db2, h2, hp2, hids2⟩ :=
    updateTeamStats_points m.AwayScore m.HomeScore (by rw [hids1]; exact hnd) ha1
  refine ⟨db2, ?_, ?_, hids2.trans hids1⟩
  · unfold updateLeagueTable
    rw [h1]
    exact h2
  · rw [hp2, hp1]
    split_ifs <;> omega

theorem decisive_cons (m : Match) (ms : List Match) :
    decisive (m :: ms) = decisive ms + (if m.HomeScore ≠ m.AwayScore then 1 else 0) := by
  unfold decisive
  by_cases h : m.HomeScore = m.AwayScore <;> simp [List.filter, h]

theorem decisive_le_length (ms : List Match) : decisive ms ≤ ms.length :=
  List.length_filter_le _ _

theorem applyMatches_points (ms : List Match) :
    ∀ db : DB, (db.teams.map (fun t => t.ID)).Nodup →
      (∀ m ∈ ms, registered db m.HomeTeamID ∧ registered db m.AwayTeamID) →
      ∃ db2, applyMatches db ms = .ok db2 ∧
        totalPoints db2 =
          totalPoints db + 3 * (decisive ms : Int) + 2 * ((ms.length : Int) - decisive ms) := by
  induction ms with
  | nil => intro db _ _; exact ⟨db, rfl, by simp [decisive]⟩
  | cons m ms ih =>
    intro db hnd hreg
    obtain ⟨hh, ha⟩ := hreg m (List.mem_cons_self _ _)
    obtain ⟨db1, h1, hp1, hids1⟩ := updateLeagueTable_points m hnd hh ha
    obtain ⟨db2, h2, hp2⟩ := ih db1 (by rw [hids1]; exact hnd) (fun x hx => by
      have hx2 := hreg x (List.mem_cons_of_mem _ hx)
      rw [registered_iff_mem_ids, registered_iff_mem_ids, hids1,
        ← registered_iff_mem_ids, ← registered_iff_mem_ids]
      exact hx2)
    refine ⟨db2, ?_, ?_⟩
    · show (updateLeagueTable db m).bind _ = _
      rw [h1]
      exact h2
    · rw [hp2, hp1, decisive_cons, List.length_cons]
      split_ifs <;> push_cast <;> omega

/-- C6. In a registry with unique ids, `updateLeagueTable` for one match between
registered teams returns and raises the points total by exactly 3 when the scores differ
and by exactly 2 when they are equal.  Hence applying a list of matches with `k` decisive
results raises the total by exactly `3k + 2(length - k)`, which is at least 2 per match,
so a total that starts non-negative is positive after any non-empty list. -/
theorem points_conservation (db : DB) (ms : List Match)
    (hnd : (db.teams.map (fun t => t.ID)).Nodup)
    (hreg : ∀ m ∈ ms, registered db m.HomeTeamID ∧ registered db m.AwayTeamID) :
    (∀ m ∈ ms, ∃ db1, updateLeagueTable db m = .ok db1 ∧
      totalPoints db1 = totalPoints db + (if m.HomeScore ≠ m.AwayScore then 3 else 2)) ∧
    (∃ db2, applyMatches db ms = .ok db2 ∧
      totalPoints db2 =
        totalPoints db + 3 * (decisive ms : Int) + 2 * ((ms.length : Int) - decisive ms) ∧
      totalPoints db + 2 * (ms.length : Int) ≤ totalPoints db2 ∧
      (0 ≤ totalPoints db → ms ≠ [] → 0 < totalPoints db2)) := by
  constructor
  · intro m hm
    obtain ⟨db1, h1, hp1, _⟩ := updateLeagueTable_points m hnd (hreg m hm).1 (hreg m hm).2
    exact ⟨db1, h1, hp1⟩
  · obtain ⟨db2, h2, hp2⟩ := applyMatches_points ms db hnd hreg
    have hk := decisive_le_length ms
    refine ⟨db2, h2, hp2, by omega, ?_⟩
    intro h0 hne
    have hlen : 0 < ms.length := List.length_pos.2 hne
    omega

/-- C6 at the four-team registry, for a week with one decisive result and one draw:
the total rises from 0 to 3 + 2 = 5. -/
theorem points_conservation_witness :
    (∀ m ∈ [mkMatch 1 2 2 1 1, mkMatch 3 4 0 0 1],
      ∃ db1, updateLeagueTable demoDB m = .ok db1 ∧
        totalPoints db1 = totalPoints demoDB + (if m.HomeScore ≠ m.AwayScore then 3 else 2)) ∧
    (∃ db2, applyMatches demoDB [mkMatch 1 2 2 1 1, mkMatch 3 4 0 0 1] = .ok db2 ∧
      totalPoints db2 =
        totalPoints demoDB + 3 * (decisive [mkMatch 1 2 2 1 1, mkMatch 3 4 0 0 1] : Int) +
          2 * (([mkMatch 1 2 2 1 1, mkMatch 3 4 0 0 1].length : Int) -
            decisive [mkMatch 1 2 2 1 1, mkMatch 3 4 0 0 1]) ∧
      totalPoints demoDB + 2 * ([mkMatch 1 2 2 1 1, mkMatch 3 4 0 0 1].length : Int)
        ≤ totalPoints db2 ∧
      (0 ≤ totalPoints demoDB → [mkMatch 1 2 2 1 1, mkMatch 3 4 0 0 1] ≠ [] →
        0 < totalPoints db2)) :=
  points_conservation demoDB [mkMatch 1 2 2 1 1, mkMatch 3 4 0 0 1] (by decide) (by decide)

/-! ## C2: no goalless match -/

theorem Intn_lt (n : Nat) (r : Rand) (h : 0 < n) : (Intn n r).1 < n :=
  Nat.mod_lt _ h

theorem updateTeamStats_returns {db : DB} {teamID : Int} (gf ga : Int)
    (h : registered db teamID) :
    ∃ db1, updateTeamStats db teamID gf ga = .ok db1 ∧ db1.matchLog = db.matchLog ∧
      db1.teams.map (fun t => t.ID) = db.teams.map (fun t => t.ID) := by
  obtain ⟨row, _, _, _, hup⟩ := updateTeamStats_ok gf ga h
  exact ⟨_, hup, rfl, map_writeStats_ID _ _⟩

theorem updateLeagueTable_returns {db : DB} (m : Match)
    (hh : registered db m.HomeTeamID) (ha : registered db m.AwayTeamID) :
    ∃ db2, updateLeagueTable db m = .ok db2 ∧ db2.matchLog = db.matchLog ∧
      db2.teams.map (fun t => t.ID) = db.teams.map (fun t => t.ID) := by
  obtain ⟨db1, h1, hlog1, hids1⟩ := updateTeamStats_returns m.HomeScore m.AwayScore hh
  have ha1 : registered db1 m.AwayTeamID := by
    rw [registered_iff_mem_ids, hids1, ← registered_iff_mem_ids]; exact ha
  obtain ⟨db2, h2, hlog2, hids2⟩ := updateTeamStats_returns m.AwayScore m.HomeScore ha1
  refine ⟨db2, ?_, hlog2.trans hlog1, hids2.trans hids1⟩
  unfold updateLeagueTable
  rw [h1]
  exact h2

/-- The first draw gives two scores in 0..4. -/
theorem firstDraw_bounds (hs as : Int) (r : Rand) :
    0 ≤ (firstDraw hs as r).1.1 ∧ (firstDraw hs as r).1.1 ≤ 4 ∧
      0 ≤ (firstDraw hs as r).1.2 ∧ (firstDraw hs as r).1.2 ≤ 4 := by
  have a1 := Intn_lt 5 r (by decide)
  have a2 := Intn_lt 4 r (by decide)
  have a3 := Intn_lt 4 (Intn 5 r).2 (by decide)
  have a4 := Intn_lt 5 (Intn 4 r).2 (by decide)
  have a5 := Intn_lt 5 (Intn 5 r).2 (by decide)
  unfold firstDraw
  dsimp only
  split_ifs <;> dsimp only <;> omega

/-- The re-draw keeps scores in 0..4 and leaves at least one goal. -/
theorem redraw_bounds (hs as : Int) (s : Int × Int) (r : Rand)
    (h : 0 ≤ s.1 ∧ s.1 ≤ 4 ∧ 0 ≤ s.2 ∧ s.2 ≤ 4) :
    1 ≤ (redraw hs as s r).1.1 + (redraw hs as s r).1.2 ∧
      0 ≤ (redraw hs as s r).1.1 ∧ (redraw hs as s r).1.1 ≤ 4 ∧
      0 ≤ (redraw hs as s r).1.2 ∧ (redraw hs as s r).1.2 ≤ 4 := by
  have a1 := Intn_lt 4 r (by decide)
  have a2 := Intn_lt 4 (Intn 4 r).2 (by decide)
  unfold redraw
  split_ifs <;> dsimp only <;> omega

theorem drawScores_bounds (hs as : Int) (r : Rand) :
    1 ≤ (drawScores hs as r).1.1 + (drawScores hs as r).1.2 ∧
      0 ≤ (drawScores hs as r).1.1 ∧ (drawScores hs as r).1.1 ≤ 4 ∧
      0 ≤ (drawScores hs as r).1.2 ∧ (drawScores hs as r).1.2 ≤ 4 :=
  redraw_bounds hs as _ _ (firstDraw_bounds hs as r)

theorem registered_saveMatch (db : DB) (m : Match) (x : Int) :
    registered (saveMatch db m) x ↔ registered db x := Iff.rfl

/-- What `playMatch` does for two registered teams: it returns, the log grows by exactly
the match with the drawn scores, and the ids of the registry are kept. -/
theorem playMatch_returns (db : DB) (home away week hs as : Int) (r : Rand)
    (hh : registered db home) (ha : registered db away) :
    ∃ db2, playMatch db home away week hs as r = .ok (db2, (drawScores hs as r).2) ∧
      db2.matchLog = db.matchLog ++
        [{ ID := nextMatchID db, HomeTeamID := home, AwayTeamID := away,
           HomeScore := (drawScores hs as r).1.1, AwayScore := (drawScores hs as r).1.2,
           Week := week }] ∧
      db2.teams.map (fun t => t.ID) = db.teams.map (fun t => t.ID) ∧
      updateLeagueTable (saveMatch db (mkMatch home away (drawScores hs as r).1.1
        (drawScores hs as r).1.2 week)) (mkMatch home away (drawScores hs as r).1.1
        (drawScores hs as r).1.2 week) = .ok db2 := by
  obtain ⟨db2, h2, hlog, hids⟩ := @updateLeagueTable_returns
    (saveMatch db (mkMatch home away (drawScores hs as r).1.1
      (drawScores hs as r).1.2 week))
    (mkMatch home away (drawScores hs as r).1.1 (drawScores hs as r).1.2 week) hh ha
  refine ⟨db2, ?_, hlog, hids, h2⟩
  unfold playMatch
  dsimp only
  unfold mkMatch at h2
  rw [h2]
  rfl

/-- C2. For every pair of strengths and every stream of random draws, the scores drawn
by `playMatch` have sum at least 1 and each lies in 0..4; and for two registered teams
`playMatch` returns with exactly one match appended to the log, which carries these
scores. -/
theorem never_goalless (db : DB) (home away week homeStrength awayStrength : Int)
    (r : Rand) (hh : registered db home) (ha : registered db away) :
    (1 ≤ (drawScores homeStrength awayStrength r).1.1 +
          (drawScores homeStrength awayStrength r).1.2 ∧
      0 ≤ (drawScores homeStrength awayStrength r).1.1 ∧
      (drawScores homeStrength awayStrength r).1.1 ≤ 4 ∧
      0 ≤ (drawScores homeStrength awayStrength r).1.2 ∧
      (drawScores homeStrength awayStrength r).1.2 ≤ 4) ∧
    ∃ db2 r2 m, playMatch db home away week homeStrength awayStrength r = .ok (db2, r2) ∧
      db2.matchLog = db.matchLog ++ [m] ∧
      m.HomeTeamID = home ∧ m.AwayTeamID = away ∧ m.Week = week ∧
      1 ≤ m.HomeScore + m.AwayScore ∧
      0 ≤ m.HomeScore ∧ m.HomeScore ≤ 4 ∧ 0 ≤ m.AwayScore ∧ m.AwayScore ≤ 4 := by
  have hb := drawScores_bounds homeStrength awayStrength r
  refine ⟨hb, ?_⟩
  obtain ⟨db2, h, hlog, _⟩ :=
    playMatch_returns db home away week homeStrength awayStrength r hh ha
  exact ⟨db2, _, _, h, hlog, rfl, rfl, rfl, hb⟩

/-- C2 at the four-team registry: Chelsea (3) hosts Arsenal (2) and both first draws
are 0, so the home score is re-drawn. -/
theorem never_goalless_witness :
    (1 ≤ (drawScores 3 2 (Rand.ofList [0, 0, 2])).1.1 +
          (drawScores 3 2 (Rand.ofList [0, 0, 2])).1.2 ∧
      0 ≤ (drawScores 3 2 (Rand.ofList [0, 0, 2])).1.1 ∧
      (drawScores 3 2 (Rand.ofList [0, 0, 2])).1.1 ≤ 4 ∧
      0 ≤ (drawScores 3 2 (Rand.ofList [0, 0, 2])).1.2 ∧
      (drawScores 3 2 (Rand.ofList [0, 0, 2])).1.2 ≤ 4) ∧
    ∃ db2 r2 m, playMatch demoDB 1 2 1 3 2 (Rand.ofList [0, 0, 2]) = .ok (db2, r2) ∧
      db2.matchLog = demoDB.matchLog ++ [m] ∧
      m.HomeTeamID = 1 ∧ m.AwayTeamID = 2 ∧ m.Week = 1 ∧
      1 ≤ m.HomeScore + m.AwayScore ∧
      0 ≤ m.HomeScore ∧ m.HomeScore ≤ 4 ∧ 0 ≤ m.AwayScore ∧ m.AwayScore ≤ 4 :=
  never_goalless demoDB 1 2 1 3 2 (Rand.ofList [0, 0, 2]) (by decide) (by decide)

/-! ## C8: the stronger side is favoured -/

theorem firstDraw_home_stronger (hs as : Int) (r : Rand) (h : hs > as) :
    (firstDraw hs as r).1.2 ≤ (firstDraw hs as r).1.1 := by
  unfold firstDraw
  rw [if_pos h]
  dsimp only
  split_ifs <;> dsimp only <;> omega

theorem firstDraw_away_stronger (hs as : Int) (r : Rand) (h : hs < as) :
    (firstDraw hs as r).1.1 ≤ (firstDraw hs as r).1.2 := by
  unfold firstDraw
  rw [if_neg (by omega), if_pos h]
  dsimp only
  split_ifs <;> dsimp only <;> omega

theorem redraw_home_stronger (hs as : Int) (s : Int × Int) (r : Rand) (h : hs > as)
    (hs2 : s.2 ≤ s.1) : (redraw hs as s r).1.2 ≤ (redraw hs as s r).1.1 := by
  unfold redraw
  rw [if_pos h]
  split_ifs <;> dsimp only <;> omega

theorem redraw_away_stronger (hs as : Int) (s : Int × Int) (r : Rand) (h : hs < as)
    (hs2 : s.1 ≤ s.2) : (redraw hs as s r).1.1 ≤ (redraw hs as s r).1.2 := by
  unfold redraw
  rw [if_neg (show ¬ hs > as by omega), if_pos h]
  split_ifs <;> dsimp only <;> omega

/-- For unequal strengths the stronger side's final score is never below the weaker
side's, whatever the draws. -/
theorem stronger_never_behind (hs as : Int) (r : Rand) (hne : hs ≠ as) :
    strongerNotBehind hs as r = true := by
  unfold strongerNotBehind drawScores
  rcases lt_or_gt_of_ne hne with h | h
  · rw [if_neg (show ¬ hs > as by omega), decide_eq_true_eq]
    exact redraw_away_stronger hs as _ _ h (firstDraw_away_stronger hs as r h)
  · rw [if_pos h, decide_eq_true_eq]
    exact redraw_home_stronger hs as _ _ h (firstDraw_home_stronger hs as r h)

theorem drawOutcomes_length : drawOutcomes.length = 80 := by decide

theorem favourable_eq (hs as : Int) (hne : hs ≠ as) : favourable hs as = 80 := by
  unfold favourable
  rw [List.filter_eq_self.2 (fun o _ => stronger_never_behind hs as _ hne)]
  exact drawOutcomes_length

/-- C8. For unequal strengths, with the draws of `playMatch` independent and uniform,
the fraction of equally likely draw outcomes in which the stronger side's final score is
at least the weaker side's is strictly greater than 1/2, whichever side is home. -/
theorem stronger_favoured (homeStrength awayStrength : Int)
    (hne : homeStrength ≠ awayStrength) :
    (1 : ℚ) / 2 <
      (favourable homeStrength awayStrength : ℚ) / (drawOutcomes.length : ℚ) := by
  rw [favourable_eq _ _ hne, drawOutcomes_length]
  norm_num

/-- C8 for strengths 3 (home) and 2 (away), and for strengths 1 (home) and 4 (away). -/
theorem stronger_favoured_witness :
    (1 : ℚ) / 2 < (favourable 3 2 : ℚ) / (drawOutcomes.length : ℚ) ∧
    (1 : ℚ) / 2 < (favourable 1 4 : ℚ) / (drawOutcomes.length : ℚ) :=
  ⟨stronger_favoured 3 2 (by decide), stronger_favoured 1 4 (by decide)⟩

/-! ## C4: the probabilities sum to 100 -/

theorem wrap64_of_range {x : Int} (h1 : -9223372036854775808 ≤ x)
    (h2 : x < 9223372036854775808) : wrap64 x = x := by
  unfold wrap64
  omega

theorem magnitude_nonneg (x : Int) : 0 ≤ magnitude x := by
  unfold magnitude; split_ifs <;> omega

theorem le_magnitude (x : Int) : x ≤ magnitude x := by
  unfold magnitude; split_ifs <;> omega

theorem neg_le_magnitude (x : Int) : -x ≤ magnitude x := by
  unfold magnitude; split_ifs <;> omega

theorem sumAbsPoints_nonneg (teams : List Team) : 0 ≤ sumAbsPoints teams := by
  unfold sumAbsPoints
  apply List.sum_nonneg
  intro x hx
  obtain ⟨t, _, rfl⟩ := List.mem_map.1 hx
  exact magnitude_nonneg _

theorem sumPositiveGD_nonneg (teams : List Team) : 0 ≤ sumPositiveGD teams := by
  unfold sumPositiveGD
  apply List.sum_nonneg
  intro x hx
  obtain ⟨t, _, rfl⟩ := List.mem_map.1 hx
  split_ifs <;> omega

theorem sumNegativeGD_nonneg (teams : List Team) : 0 ≤ sumNegativeGD teams := by
  unfold sumNegativeGD
  apply List.sum_nonneg
  intro x hx
  obtain ⟨t, _, rfl⟩ := List.mem_map.1 hx
  split_ifs <;> omega

theorem exactAdjusted_nonneg (gd p n : Int) (hp : 0 ≤ p) (hn : 0 ≤ n) :
    0 ≤ exactAdjusted gd p n := by
  unfold exactAdjusted
  split_ifs with h
  · exact Int.tdiv_nonneg (Int.mul_nonneg h hp) (by omega)
  · exact Int.tdiv_nonneg (Int.mul_nonneg (by omega) hn) (by omega)

theorem sum_exactProbability (T p n : Int) (teams : List Team) :
    (teams.map (fun t => exactProbability t.Points (exactAdjusted t.GD p n) T)).sum =
      (((teams.map (fun t => t.Points + exactAdjusted t.GD p n)).sum : Int) : ℚ) / (T : ℚ) * 100 := by
  induction teams with
  | nil => simp
  | cons t rest ih =>
    rw [List.map_cons, List.sum_cons, ih, List.map_cons, List.sum_cons]
    generalize (rest.map (fun t => t.Points + exactAdjusted t.GD p n)).sum = S
    unfold exactProbability
    push_cast
    ring

theorem normalizeFactor_raw (T p n : Int) (teams : List Team) :
    normalizeFactor (teams.map (fun t : Team =>
      ({ Name := t.Name,
         Probability := exactProbability t.Points (exactAdjusted t.GD p n) T } :
        TeamPrediction))) =
      (((teams.map (fun t => t.Points + exactAdjusted t.GD p n)).sum : Int) : ℚ) / (T : ℚ) * 100 := by
  unfold normalizeFactor
  rw [List.map_map]
  exact sum_exactProbability T p n teams

theorem sum_points_add_adjusted (p n : Int) (hp : 0 ≤ p) (hn : 0 ≤ n) (teams : List Team) :
    sumPoints teams ≤ (teams.map (fun t => t.Points + exactAdjusted t.GD p n)).sum := by
  unfold sumPoints
  induction teams with
  | nil => simp
  | cons t rest ih =>
    simp only [List.map_cons, List.sum_cons]
    have := exactAdjusted_nonneg t.GD p n hp hn
    omega

theorem sumProbabilities_normalize (ps : List TeamPrediction) (h : normalizeFactor ps ≠ 0) :
    sumProbabilities (normalize ps) = 100 := by
  unfold sumProbabilities normalize
  rw [List.map_map]
  have h1 : (ps.map ((fun p : TeamPrediction => p.Probability) ∘
      (fun p => { p with Probability := p.Probability * 100 / normalizeFactor ps }))) =
      ps.map (fun p => p.Probability * (100 / normalizeFactor ps)) := by
    apply List.map_congr_left
    intro p _
    simp only [Function.comp]
    ring
  rw [h1, List.sum_map_mul_right]
  change normalizeFactor ps * (100 / normalizeFactor ps) = 100
  field_simp

theorem sortTeams_perm (teams : List Team) : (sortTeams teams).Perm teams :=
  List.perm_insertionSort _ _

theorem sumPoints_sortTeams (teams : List Team) : sumPoints (sortTeams teams) = sumPoints teams :=
  ((sortTeams_perm teams).map _).sum_eq

theorem sumPositiveGD_sortTeams (teams : List Team) :
    sumPositiveGD (sortTeams teams) = sumPositiveGD teams :=
  ((sortTeams_perm teams).map _).sum_eq

theorem sumNegativeGD_sortTeams (teams : List Team) :
    sumNegativeGD (sortTeams teams) = sumNegativeGD teams :=
  ((sortTeams_perm teams).map _).sum_eq

theorem sumPoints_scanStandings (db : DB) : sumPoints (scanStandings db) = totalPoints db := by
  unfold sumPoints scanStandings totalPoints
  rw [List.map_map]
  rfl

theorem sumPositiveGD_scanStandings (db : DB) :
    sumPositiveGD (scanStandings db) = sumPositiveGD db.teams := by
  unfold sumPositiveGD scanStandings
  rw [List.map_map]
  rfl

theorem sumNegativeGD_scanStandings (db : DB) :
    sumNegativeGD (scanStandings db) = sumNegativeGD db.teams := by
  unfold sumNegativeGD scanStandings
  rw [List.map_map]
  rfl

/-! ### The accumulators and the adjusted goal difference without wrap-around -/

theorem foldl_points_exact (teams : List Team) :
    ∀ acc : Int, magnitude acc + sumAbsPoints teams < 9223372036854775808 →
      teams.foldl (fun acc team => goAdd acc team.Points) acc = acc + sumPoints teams := by
  induction teams with
  | nil => intro acc _; simp [sumPoints]
  | cons t rest ih =>
    intro acc h
    have e1 : sumAbsPoints (t :: rest) = magnitude t.Points + sumAbsPoints rest := by
      simp [sumAbsPoints]
    have e2 : sumPoints (t :: rest) = t.Points + sumPoints rest := by
      simp [sumPoints]
    have h0 := sumAbsPoints_nonneg rest
    have a1 := le_magnitude acc
    have a2 := neg_le_magnitude acc
    have a3 := le_magnitude t.Points
    have a4 := neg_le_magnitude t.Points
    have a5 := le_magnitude (acc + t.Points)
    have a6 : magnitude (acc + t.Points) ≤ magnitude acc + magnitude t.Points := by
      unfold magnitude; split_ifs <;> omega
    have hstep : goAdd acc t.Points = acc + t.Points :=
      wrap64_of_range (by omega) (by omega)
    rw [List.foldl_cons, hstep, ih (acc + t.Points) (by omega), e2]
    omega

theorem foldl_positive_exact (teams : List Team) :
    ∀ acc : Int, 0 ≤ acc → acc + sumPositiveGD teams < 9223372036854775808 →
      teams.foldl (fun acc team => if team.GD ≥ 0 then goAdd acc team.GD else acc) acc =
        acc + sumPositiveGD teams := by
  induction teams with
  | nil => intro acc _ _; simp [sumPositiveGD]
  | cons t rest ih =>
    intro acc h0 h
    have e1 : sumPositiveGD (t :: rest) =
        (if t.GD ≥ 0 then t.GD else 0) + sumPositiveGD rest := by
      simp [sumPositiveGD]
    have hr := sumPositiveGD_nonneg rest
    rw [List.foldl_cons, e1]
    rw [e1] at h
    by_cases hg : t.GD ≥ 0
    · rw [if_pos hg] at h ⊢
      have hstep : goAdd acc t.GD = acc + t.GD := wrap64_of_range (by omega) (by omega)
      rw [hstep, ih (acc + t.GD) (by omega) (by omega)]
      omega
    · rw [if_neg hg] at h ⊢
      rw [ih acc h0 (by omega)]
      omega

theorem foldl_negative_exact (teams : List Team) :
    ∀ acc : Int, 0 ≤ acc → acc + sumNegativeGD teams < 9223372036854775808 →
      teams.foldl (fun acc team => if team.GD ≥ 0 then acc else goAdd acc (goNeg team.GD))
          acc = acc + sumNegativeGD teams := by
  induction teams with
  | nil => intro acc _ _; simp [sumNegativeGD]
  | cons t rest ih =>
    intro acc h0 h
    have e1 : sumNegativeGD (t :: rest) =
        (if t.GD ≥ 0 then 0 else -t.GD) + sumNegativeGD rest := by
      simp [sumNegativeGD]
    have hr := sumNegativeGD_nonneg rest
    rw [List.foldl_cons, e1]
    rw [e1] at h
    by_cases hg : t.GD ≥ 0
    · rw [if_pos hg] at h ⊢
      rw [ih acc h0 (by omega)]
      omega
    · rw [if_neg hg] at h ⊢
      have hneg : goNeg t.GD = -t.GD := wrap64_of_range (by omega) (by omega)
      have hstep : goAdd acc (-t.GD) = acc + -t.GD := wrap64_of_range (by omega) (by omega)
      rw [hneg, hstep, ih (acc + -t.GD) (by omega) (by omega)]
      omega

theorem accPoints_exact (teams : List Team)
    (h : sumAbsPoints teams < 4611686018427387904) : accPoints teams = sumPoints teams := by
  unfold accPoints
  rw [foldl_points_exact teams 0 (by simp only [magnitude]; simp; omega)]
  omega

theorem accPositiveGD_exact (teams : List Team)
    (h : sumPositiveGD teams + sumNegativeGD teams < 2147483648) :
    accPositiveGD teams = sumPositiveGD teams := by
  have hn := sumNegativeGD_nonneg teams
  unfold accPositiveGD
  rw [foldl_positive_exact teams 0 (le_refl 0) (by omega)]
  omega

theorem accNegativeGD_exact (teams : List Team)
    (h : sumPositiveGD teams + sumNegativeGD teams < 2147483648) :
    accNegativeGD teams = sumNegativeGD teams := by
  have hp := sumPositiveGD_nonneg teams
  unfold accNegativeGD
  rw [foldl_negative_exact teams 0 (le_refl 0) (by omega)]
  omega

theorem product_in_range {a b : Int} (ha : 0 ≤ a) (hb : 0 ≤ b) (ha2 : a < 2147483648)
    (hb2 : b < 2147483648) : 0 ≤ a * b ∧ a * b ≤ 4611686018427387904 := by
  refine ⟨Int.mul_nonneg ha hb, ?_⟩
  have h1 : a * b ≤ 2147483648 * 2147483648 :=
    Int.mul_le_mul (by omega) (by omega) hb (by omega)
  have h2 : (2147483648 : Int) * 2147483648 = 4611686018427387904 := by norm_num
  omega

theorem tdiv_in_range {a b : Int} (ha : 0 ≤ a) (hb : 0 < b) :
    0 ≤ a.tdiv b ∧ a.tdiv b ≤ a := by
  refine ⟨Int.tdiv_nonneg ha (by omega), ?_⟩
  rw [Int.tdiv_eq_ediv ha (by omega)]
  exact Int.ediv_le_self b ha

/-- Without wrap-around the adjusted goal difference lies between 0 and 2^62. -/
theorem exactAdjusted_le (gd p n : Int) (hp : 0 ≤ p) (hn : 0 ≤ n)
    (hsum : p + n < 2147483648) (hgd : magnitude gd ≤ p + n) (hne : p + n ≠ 0) :
    exactAdjusted gd p n ≤ 4611686018427387904 := by
  have m1 := le_magnitude gd
  have m2 := neg_le_magnitude gd
  unfold exactAdjusted
  split_ifs with h
  · have hprod := product_in_range h hp (by omega) (by omega)
    have hdiv := tdiv_in_range hprod.1 (show 0 < p + n by omega)
    omega
  · have hprod := product_in_range (show 0 ≤ -gd by omega) hn (by omega) (by omega)
    have hdiv := tdiv_in_range hprod.1 (show 0 < p + n by omega)
    omega

/-- While the goal differences sum to less than 2^31 in absolute value, lines 533-538
compute the adjusted goal difference without wrap-around. -/
theorem adjustedGD_exact (gd p n : Int) (hp : 0 ≤ p) (hn : 0 ≤ n)
    (hsum : p + n < 2147483648) (hgd : magnitude gd ≤ p + n) (hne : p + n ≠ 0) :
    adjustedGD gd p n = .ok (exactAdjusted gd p n) := by
  have m1 := le_magnitude gd
  have m2 := neg_le_magnitude gd
  have hadd : goAdd p n = p + n := wrap64_of_range (by omega) (by omega)
  unfold adjustedGD exactAdjusted
  rw [hadd, if_neg hne]
  split_ifs with h
  · have hprod := product_in_range h hp (by omega) (by omega)
    have hdiv := tdiv_in_range hprod.1 (show 0 < p + n by omega)
    have hmul : goMul gd p = gd * p := wrap64_of_range (by omega) (by omega)
    have hq : goDiv (gd * p) (p + n) = (gd * p).tdiv (p + n) :=
      wrap64_of_range (by omega) (by omega)
    rw [hmul, hq]
  · have hprod := product_in_range (show 0 ≤ -gd by omega) hn (by omega) (by omega)
    have hdiv := tdiv_in_range hprod.1 (show 0 < p + n by omega)
    have hneg : goNeg gd = -gd := wrap64_of_range (by omega) (by omega)
    have hmul : goMul (-gd) n = -gd * n := wrap64_of_range (by omega) (by omega)
    have hq : goDiv (-gd * n) (p + n) = (-gd * n).tdiv (p + n) :=
      wrap64_of_range (by omega) (by omega)
    rw [hneg, hmul, hq]

theorem rawProbability_exact (points adjusted T : Int)
    (hp : magnitude points < 4611686018427387904) (ha0 : 0 ≤ adjusted)
    (ha : adjusted ≤ 4611686018427387904) :
    rawProbability points adjusted T = exactProbability points adjusted T := by
  have m1 := le_magnitude points
  have m2 := neg_le_magnitude points
  unfold rawProbability exactProbability
  rw [show goAdd points adjusted = points + adjusted from
    wrap64_of_range (by omega) (by omega)]

theorem magnitude_GD_le_sum (teams : List Team) :
    ∀ t ∈ teams, magnitude t.GD ≤ sumPositiveGD teams + sumNegativeGD teams := by
  induction teams with
  | nil => intro t ht; simp at ht
  | cons u rest ih =>
    intro t ht
    have e1 : sumPositiveGD (u :: rest) =
        (if u.GD ≥ 0 then u.GD else 0) + sumPositiveGD rest := by simp [sumPositiveGD]
    have e2 : sumNegativeGD (u :: rest) =
        (if u.GD ≥ 0 then 0 else -u.GD) + sumNegativeGD rest := by simp [sumNegativeGD]
    have hp := sumPositiveGD_nonneg rest
    have hn := sumNegativeGD_nonneg rest
    rw [e1, e2]
    rcases List.mem_cons.1 ht with rfl | h
    · unfold magnitude
      split_ifs <;> omega
    · have := ih t h
      split_ifs <;> omega

theorem magnitude_Points_le_sum (teams : List Team) :
    ∀ t ∈ teams, magnitude t.Points ≤ sumAbsPoints teams := by
  induction teams with
  | nil => intro t ht; simp at ht
  | cons u rest ih =>
    intro t ht
    have e1 : sumAbsPoints (u :: rest) = magnitude u.Points + sumAbsPoints rest := by
      simp [sumAbsPoints]
    have h0 := sumAbsPoints_nonneg rest
    have hu := magnitude_nonneg u.Points
    rw [e1]
    rcases List.mem_cons.1 ht with rfl | h
    · omega
    · have := ih t h
      omega

/-- While nothing wraps, the loop of raw predictions returns one prediction per team,
with the values of the exact formulas. -/
theorem rawPredictions_exact (T p n : Int) (hp : 0 ≤ p) (hn : 0 ≤ n)
    (hsum : p + n < 2147483648) (hne : p + n ≠ 0) (teams : List Team)
    (hall : ∀ t ∈ teams, magnitude t.GD ≤ p + n ∧
      magnitude t.Points < 4611686018427387904) :
    rawPredictions T p n teams =
      .ok (teams.map (fun t =>
        { Name := t.Name,
          Probability := exactProbability t.Points (exactAdjusted t.GD p n) T })) := by
  induction teams with
  | nil => rfl
  | cons t rest ih =>
    obtain ⟨h1, h2⟩ := hall t (List.mem_cons_self _ _)
    unfold rawPredictions
    rw [adjustedGD_exact _ _ _ hp hn hsum h1 hne,
      ih (fun u hu => hall u (List.mem_cons_of_mem _ hu))]
    simp only [Result.bind, List.map_cons]
    rw [rawProbability_exact _ _ _ h2 (exactAdjusted_nonneg _ _ _ hp hn)
      (exactAdjusted_le _ _ _ hp hn hsum h1 hne)]

theorem sumAbsPoints_sortTeams (teams : List Team) :
    sumAbsPoints (sortTeams teams) = sumAbsPoints teams :=
  ((sortTeams_perm teams).map _).sum_eq

theorem sumAbsPoints_scanStandings (db : DB) :
    sumAbsPoints (scanStandings db) = sumAbsPoints db.teams := by
  unfold sumAbsPoints scanStandings
  rw [List.map_map]
  rfl

/-- On a registry within range the accumulators hold the exact sums and
`predictStandings` returns the normalised predictions of the exact formulas. -/
theorem predictStandings_exact (db : DB) (hr : withinRange db)
    (hne : sumPositiveGD db.teams + sumNegativeGD db.teams ≠ 0) :
    accPoints (sortTeams (scanStandings db)) = totalPoints db ∧
    accPositiveGD (sortTeams (scanStandings db)) = sumPositiveGD db.teams ∧
    accNegativeGD (sortTeams (scanStandings db)) = sumNegativeGD db.teams ∧
    rawPredictions (accPoints (sortTeams (scanStandings db)))
        (accPositiveGD (sortTeams (scanStandings db)))
        (accNegativeGD (sortTeams (scanStandings db))) (sortTeams (scanStandings db)) =
      .ok ((sortTeams (scanStandings db)).map (fun t =>
        { Name := t.Name,
          Probability := exactProbability t.Points
            (exactAdjusted t.GD (sumPositiveGD db.teams) (sumNegativeGD db.teams))
            (totalPoints db) })) ∧
    predictStandings db =
      .ok (normalize ((sortTeams (scanStandings db)).map (fun t =>
        { Name := t.Name,
          Probability := exactProbability t.Points
            (exactAdjusted t.GD (sumPositiveGD db.teams) (sumNegativeGD db.teams))
            (totalPoints db) }))) := by
  obtain ⟨hr1, hr2⟩ := hr
  have hA : sumAbsPoints (sortTeams (scanStandings db)) = sumAbsPoints db.teams :=
    (sumAbsPoints_sortTeams _).trans (sumAbsPoints_scanStandings db)
  have hP : sumPositiveGD (sortTeams (scanStandings db)) = sumPositiveGD db.teams :=
    (sumPositiveGD_sortTeams _).trans (sumPositiveGD_scanStandings db)
  have hN : sumNegativeGD (sortTeams (scanStandings db)) = sumNegativeGD db.teams :=
    (sumNegativeGD_sortTeams _).trans (sumNegativeGD_scanStandings db)
  have hT : sumPoints (sortTeams (scanStandings db)) = totalPoints db :=
    (sumPoints_sortTeams _).trans (sumPoints_scanStandings db)
  have e1 : accPoints (sortTeams (scanStandings db)) = totalPoints db := by
    rw [accPoints_exact _ (by rw [hA]; exact hr1), hT]
  have e2 : accPositiveGD (sortTeams (scanStandings db)) = sumPositiveGD db.teams := by
    rw [accPositiveGD_exact _ (by rw [hP, hN]; exact hr2), hP]
  have e3 : accNegativeGD (sortTeams (scanStandings db)) = sumNegativeGD db.teams := by
    rw [accNegativeGD_exact _ (by rw [hP, hN]; exact hr2), hN]
  have hraw := rawPredictions_exact (totalPoints db) (sumPositiveGD db.teams)
    (sumNegativeGD db.teams) (sumPositiveGD_nonneg _) (sumNegativeGD_nonneg _) hr2 hne
    (sortTeams (scanStandings db)) (by
      intro t ht
      constructor
      · have := magnitude_GD_le_sum _ t ht
        rwa [hP, hN] at this
      · have := magnitude_Points_le_sum _ t ht
        rw [hA] at this
        omega)
  refine ⟨e1, e2, e3, ?_, ?_⟩
  · rw [e1, e2, e3]
    exact hraw
  · unfold predictStandings
    dsimp only
    rw [e1, e2, e3, hraw]
    rfl

/-- The facts behind the sum to 100: on a registry within range with positive totals
the normalisation factor is non-zero and the normalised probabilities sum to 100. -/
theorem normalised_sum (db : DB) (hpts : 0 < totalPoints db) :
    normalizeFactor ((sortTeams (scanStandings db)).map (fun t : Team =>
      ({ Name := t.Name,
         Probability := exactProbability t.Points
           (exactAdjusted t.GD (sumPositiveGD db.teams) (sumNegativeGD db.teams))
           (totalPoints db) } : TeamPrediction))) ≠ 0 := by
  have hS : totalPoints db ≤ ((sortTeams (scanStandings db)).map (fun t =>
      t.Points + exactAdjusted t.GD (sumPositiveGD db.teams) (sumNegativeGD db.teams))).sum := by
    have := sum_points_add_adjusted _ _ (sumPositiveGD_nonneg db.teams)
      (sumNegativeGD_nonneg db.teams) (sortTeams (scanStandings db))
    rwa [sumPoints_sortTeams, sumPoints_scanStandings] at this
  have hT : (0 : ℚ) < (totalPoints db : ℚ) := by exact_mod_cast hpts
  rw [normalizeFactor_raw]
  have hS2 : (0 : ℚ) < ((((sortTeams (scanStandings db)).map (fun t =>
      t.Points + exactAdjusted t.GD (sumPositiveGD db.teams)
        (sumNegativeGD db.teams))).sum : Int) : ℚ) := by
    exact_mod_cast lt_of_lt_of_le hpts hS
  positivity

/-- C4, refuted as stated.  At the registry with points 3037000499 and 0 and goal
differences 0 and -3037000500, `totalPoints` and `totalPositiveGD + totalNegativeGD` are
positive, the product of line 537 wraps, the two raw probabilities are 100 and -100, and
the normalisation factor is 0, so line 549 divides by zero. -/
theorem normalisation_factor_zero_on_wrap :
    0 < accPoints (sortTeams (scanStandings wrapDrawn)) ∧
    0 < goAdd (accPositiveGD (sortTeams (scanStandings wrapDrawn)))
          (accNegativeGD (sortTeams (scanStandings wrapDrawn))) ∧
    0 < totalPoints wrapDrawn ∧
    0 < sumPositiveGD wrapDrawn.teams + sumNegativeGD wrapDrawn.teams ∧
    goMul (goNeg (-3037000500)) 3037000500 = -9223372036709301616 ∧
    adjustedGD (-3037000500) 0 3037000500 = .ok (-3037000499) ∧
    (rawPredictions (accPoints (sortTeams (scanStandings wrapDrawn)))
        (accPositiveGD (sortTeams (scanStandings wrapDrawn)))
        (accNegativeGD (sortTeams (scanStandings wrapDrawn)))
        (sortTeams (scanStandings wrapDrawn))).map
        (fun raw => (raw.map (fun p => p.Probability), normalizeFactor raw))
      = .ok ([100, -100], 0) := by
  refine ⟨?_, ?_, ?_, ?_, ?_, ?_, ?_⟩ <;> decide!

/-- C4, amended.  For every registry within range (absolute points summing to less than
2^62, absolute goal differences to less than 2^31, so that no `int` operation wraps)
with `totalPoints > 0` and `totalPositiveGD + totalNegativeGD > 0`, the accumulators of
`predictStandings` hold these totals, and `predictStandings` (Go's truncating integer
division for the adjusted goal difference, the float divisions read as exact rational
arithmetic) returns one prediction per team, the normalisation factor (the sum of the raw
probabilities) is non-zero, and the returned probabilities sum to exactly 100. -/
theorem predictions_sum_to_100 (db : DB) (hr : withinRange db)
    (hpts : 0 < totalPoints db)
    (hgd : 0 < sumPositiveGD db.teams + sumNegativeGD db.teams) :
    accPoints (sortTeams (scanStandings db)) = totalPoints db ∧
    goAdd (accPositiveGD (sortTeams (scanStandings db)))
        (accNegativeGD (sortTeams (scanStandings db))) =
      sumPositiveGD db.teams + sumNegativeGD db.teams ∧
    ∃ raw, rawPredictions (accPoints (sortTeams (scanStandings db)))
          (accPositiveGD (sortTeams (scanStandings db)))
          (accNegativeGD (sortTeams (scanStandings db)))
          (sortTeams (scanStandings db)) = .ok raw ∧
      normalizeFactor raw ≠ 0 ∧
      predictStandings db = .ok (normalize raw) ∧
      (normalize raw).length = db.teams.length ∧
      sumProbabilities (normalize raw) = 100 := by
  obtain ⟨e1, e2, e3, hraw, hpred⟩ := predictStandings_exact db hr (by omega)
  have hfac := normalised_sum db hpts
  have hp := sumPositiveGD_nonneg db.teams
  have hn := sumNegativeGD_nonneg db.teams
  refine ⟨e1, ?_, _, hraw, hfac, hpred, ?_, sumProbabilities_normalize _ hfac⟩
  · rw [e2, e3]
    exact wrap64_of_range (by omega) (by have := hr.2; omega)
  · unfold normalize
    rw [List.length_map, List.length_map, (sortTeams_perm _).length_eq]
    unfold scanStandings
    rw [List.length_map]

/-- C4, amended, at the registry with points 12, 6, 4, 0 and goal differences
+20, +3, -3, -20: the adjusted goal differences are 10, 1, 1, 10 and the raw
probabilities sum to 200 before they are normalised. -/
theorem predictions_sum_to_100_witness :
    accPoints (sortTeams (scanStandings lopsidedStandings)) = totalPoints lopsidedStandings ∧
    goAdd (accPositiveGD (sortTeams (scanStandings lopsidedStandings)))
        (accNegativeGD (sortTeams (scanStandings lopsidedStandings))) =
      sumPositiveGD lopsidedStandings.teams + sumNegativeGD lopsidedStandings.teams ∧
    ∃ raw, rawPredictions (accPoints (sortTeams (scanStandings lopsidedStandings)))
          (accPositiveGD (sortTeams (scanStandings lopsidedStandings)))
          (accNegativeGD (sortTeams (scanStandings lopsidedStandings)))
          (sortTeams (scanStandings lopsidedStandings)) = .ok raw ∧
      normalizeFactor raw ≠ 0 ∧
      predictStandings lopsidedStandings = .ok (normalize raw) ∧
      (normalize raw).length = lopsidedStandings.teams.length ∧
      sumProbabilities (normalize raw) = 100 :=
  predictions_sum_to_100 lopsidedStandings (by decide) (by decide) (by decide)

/-! ## C9: all goal differences zero -/

/-- C9, the code at a failing input.  After two drawn matches every goal difference is
0, the divisor `totalPositiveGD + totalNegativeGD` is 0, and `predictStandings` panics
on the integer division; the request `/simulate?week=4` that draws 1-1 and 2-2 ends in
that panic. -/
theorem zero_goal_difference_panics :
    (applyMatches demoDB [mkMatch 1 2 1 1 4, mkMatch 3 4 2 2 4]).map
        (fun db => (db.teams.map (fun t => t.GD),
          sumPositiveGD db.teams + sumNegativeGD db.teams)) = .ok ([0, 0, 0, 0], 0) ∧
    (applyMatches demoDB [mkMatch 1 2 1 1 4, mkMatch 3 4 2 2 4]).bind predictStandings
        = .panic ∧
    adjustedGD 0 0 0 = .panic ∧
    (simulateHandler 0 (some 4) demoDB (Rand.ofList [3, 2, 1, 1, 1, 2, 2])).map
        (fun p => (p.1, p.2.1)) = .panic := by
  decide!

/-! ## C10: a week outside 1..5 -/

/-- C10, the code at failing inputs.  On the fresh four-team registry the requests
`/simulate?week=0` and `/simulate?week=-1` are answered with the page, and afterwards the
log holds two matches of that week and every team has played once; the request
`/simulate?week=6` also plays (two matches are logged by `PlayWeekMatches`) and then
reseeds the registry, here with strengths 1, 1, 1, 1 instead of 3, 2, 4, 1.  Only an
unparsable week is rejected with the state unchanged. -/
theorem invalid_week_is_simulated :
    (simulateHandler 0 (some 0) demoDB (Rand.ofList [3, 2, 1, 1, 1, 2, 2])).map
        (fun p => (p.1, pairsOf (matchesOfWeek p.2.1 0), p.2.1.matchLog.length,
          p.2.1.teams.map (fun t => t.Played)))
      = .ok (Response.page, [(1, 2), (3, 4)], 2, [1, 1, 1, 1]) ∧
    (simulateHandler 0 (some (-1)) demoDB (Rand.ofList [3, 2, 1, 1, 1, 2, 2])).map
        (fun p => (p.1, pairsOf (matchesOfWeek p.2.1 (-1)), p.2.1.matchLog.length,
          p.2.1.teams.map (fun t => t.Played)))
      = .ok (Response.page, [(1, 2), (3, 4)], 2, [1, 1, 1, 1]) ∧
    (PlayWeekMatches 0 demoDB 6 (Rand.ofList [3, 2, 1, 2, 1, 2, 2])).map
        (fun p => (pairsOf (matchesOfWeek p.1 6), p.1.teams.map (fun t => t.Played)))
      = .ok ([(1, 2), (3, 4)], [1, 1, 1, 1]) ∧
    (simulateHandler 0 (some 6) demoDB (Rand.ofList [3, 2, 1, 2, 1, 2, 2])).map
        (fun p => (p.1, p.2.1.teams.map (fun t => t.Strength)))
      = .ok (Response.page, [1, 1, 1, 1]) ∧
    demoDB.matchLog = [] ∧ demoDB.teams.map (fun t => t.Strength) = [3, 2, 4, 1] ∧
    (simulateHandler 0 none demoDB (Rand.ofList [3, 2, 1, 1, 1, 2, 2])).map
        (fun p => (p.1, p.2.1)) = .ok (Response.badRequest, demoDB) := by
  refine ⟨?_, ?_, ?_, ?_, ?_, ?_, ?_⟩ <;> decide!

/-! ## C3: the pairing of a week -/

/-- C3, the code at failing inputs.  Six teams: week 1 plays 1-3, 2-4, 5-6; in week 2 the
walk has played 1-2 and 3-4 when the pair 5, 6 turns out to be a repeat, the whole list
is reshuffled, and the pair then found at positions 4, 5 is 5, 1: team 1 plays twice and
team 6 not at all.  Four teams with a previous-week list holding only 3-4: the walk
plays 1-2, reshuffles on 3, 4 and then plays 2-4. -/
theorem pairing_not_perfect_matching :
    (playWeeks 1 [1, 2] sixTeamDB
        (Rand.ofList [5, 4, 3, 1, 1, 1, 0, 1, 0, 1, 0,
                      5, 4, 3, 2, 1, 1, 0, 1, 0, 0, 4, 3, 2, 1, 1, 0])).map
        (fun p => (pairsOf (matchesOfWeek p.1 1), pairsOf (matchesOfWeek p.1 2),
          decide (perfectMatching p.1 (matchesOfWeek p.1 2)),
          p.1.teams.map (fun t => t.Played)))
      = .ok ([(1, 3), (2, 4), (5, 6)], [(1, 2), (3, 4), (5, 1)], false, [3, 2, 2, 2, 2, 1]) ∧
    (PlayWeekMatches 1 { demoDB with matchLog := [mkMatch 3 4 1 0 0] } 1
        (Rand.ofList [3, 2, 1, 1, 0, 3, 1, 1, 1, 0])).map
        (fun p => (pairsOf (matchesOfWeek p.1 1),
          decide (perfectMatching p.1 (matchesOfWeek p.1 1))))
      = .ok ([(1, 2), (2, 4)], false) := by
  decide!

/-! ## The shuffle permutes -/

theorem swapAt_perm {α : Type} (l : List α) (i j : Nat) : (swapAt l i j).Perm l := by
  classical
  unfold swapAt
  cases hi : l[i]? with
  | none => exact List.Perm.refl _
  | some a =>
    cases hj : l[j]? with
    | none => exact List.Perm.refl _
    | some b =>
      obtain ⟨hil, hia⟩ := List.getElem?_eq_some_iff.1 hi
      obtain ⟨hjl, hjb⟩ := List.getElem?_eq_some_iff.1 hj
      have hjl2 : j < (l.set i b).length := by rw [List.length_set]; exact hjl
      rw [List.perm_iff_count]
      intro x
      rw [List.count_set _ _ _ _ hjl2, List.count_set _ _ _ _ hil, List.getElem_set, hia]
      have hb2 : (if i = j then b else l[j]) = b := by
        split_ifs
        · rfl
        · exact hjb
      rw [hb2]
      have ha1 : (a == x) = true → 1 ≤ List.count x l := by
        intro h
        have : a = x := by simpa using h
        subst this
        exact List.count_pos_iff.2 (hia ▸ List.getElem_mem hil)
      split_ifs <;> simp_all

theorem shuffleFrom_perm {α : Type} (k : Nat) : ∀ (l : List α) (r : Rand),
    (shuffleFrom k l r).1.Perm l := by
  induction k with
  | zero => intro l r; exact List.Perm.refl _
  | succ k ih =>
    intro l r
    unfold shuffleFrom
    exact (ih _ _).trans (swapAt_perm _ _ _)

theorem Shuffle_perm {α : Type} (l : List α) (r : Rand) : (Shuffle l r).1.Perm l :=
  shuffleFrom_perm _ l r

/-! ## C7: the four-team season -/

theorem Result.bind_eq_ok {α β : Type} {r : Result α} {f : α → Result β} {b : β}
    (h : r.bind f = .ok b) : ∃ a, r = .ok a ∧ f a = .ok b := by
  cases r with
  | ok a => exact ⟨a, rfl, h⟩
  | panic => exact absurd h (by simp [Result.bind])
  | timeout => exact absurd h (by simp [Result.bind])

theorem perm4_facts {a b c d : Int} (h : [a, b, c, d].Perm [1, 2, 3, 4]) :
    (1 ≤ a ∧ a ≤ 4) ∧ (1 ≤ b ∧ b ≤ 4) ∧ (1 ≤ c ∧ c ≤ 4) ∧ (1 ≤ d ∧ d ≤ 4) ∧
      a ≠ b ∧ a ≠ c ∧ a ≠ d ∧ b ≠ c ∧ b ≠ d ∧ c ≠ d := by
  have hnd : [a, b, c, d].Nodup := h.nodup_iff.2 (by decide)
  have ha : a ∈ ([1, 2, 3, 4] : List Int) := h.subset (by simp)
  have hb : b ∈ ([1, 2, 3, 4] : List Int) := h.subset (by simp)
  have hc : c ∈ ([1, 2, 3, 4] : List Int) := h.subset (by simp)
  have hd : d ∈ ([1, 2, 3, 4] : List Int) := h.subset (by simp)
  simp only [List.mem_cons, List.mem_singleton, List.not_mem_nil, or_false] at ha hb hc hd
  simp only [List.nodup_cons, List.mem_cons, List.mem_singleton, List.not_mem_nil, or_false,
    not_or, List.nodup_nil, and_true, not_false_eq_true] at hnd
  omega

theorem isRepeatMatch_nil (x y : Int) : isRepeatMatch [] x y = false := rfl

theorem isRepeatMatch_pair (m1 m2 : Match) (x y : Int) :
    isRepeatMatch [m1, m2] x y = true ↔
      ((m1.HomeTeamID = x ∧ m1.AwayTeamID = y) ∨ (m1.HomeTeamID = y ∧ m1.AwayTeamID = x)) ∨
      ((m2.HomeTeamID = x ∧ m2.AwayTeamID = y) ∨ (m2.HomeTeamID = y ∧ m2.AwayTeamID = x)) := by
  simp [isRepeatMatch]

theorem perm_pair {c d r s : Int} (h : [c, d].Perm [r, s]) :
    (r = c ∧ s = d) ∨ (r = d ∧ s = c) := by
  have hc : c ∈ [r, s] := h.subset (by simp)
  simp only [List.mem_cons, List.mem_singleton, List.not_mem_nil, or_false] at hc
  rcases hc with rfl | rfl
  · left
    have h3 := List.perm_singleton.1 ((List.perm_cons _).1 h)
    simp only [List.cons.injEq, and_true] at h3
    exact ⟨rfl, h3.symm⟩
  · right
    have h2 : [c, d].Perm [c, r] := h.trans (List.Perm.swap _ _ _)
    have h3 := List.perm_singleton.1 ((List.perm_cons _).1 h2)
    simp only [List.cons.injEq, and_true] at h3
    exact ⟨h3.symm, rfl⟩

/-- If two orderings of the same four teams start with the same unordered pair, they end
with the same unordered pair. -/
theorem complement_pair {a b c d p q r s : Int} (h : [a, b, c, d].Perm [p, q, r, s])
    (hpq : (p = a ∧ q = b) ∨ (p = b ∧ q = a)) : (r = c ∧ s = d) ∨ (r = d ∧ s = c) := by
  rcases hpq with ⟨rfl, rfl⟩ | ⟨rfl, rfl⟩
  · exact perm_pair ((List.perm_cons _).1 ((List.perm_cons _).1 h))
  · have h2 : [p, q, c, d].Perm [p, q, r, s] := (List.Perm.swap _ _ _).trans h
    exact perm_pair ((List.perm_cons _).1 ((List.perm_cons _).1 h2))

theorem perm_rotate2 (a b c d : Int) : [c, d, a, b].Perm [a, b, c, d] :=
  @List.perm_append_comm _ [c, d] [a, b]

/-- When the previous week paired off all four teams (or nothing was played), the first
pair of an ordering repeats exactly when the second pair does. -/
theorem repeat_complement (prev : List Match) (hprev : prev = [] ∨ Fixture4 prev)
    (a b c d : Int) (hperm : [a, b, c, d].Perm [1, 2, 3, 4]) :
    isRepeatMatch prev a b = isRepeatMatch prev c d := by
  rcases hprev with rfl | ⟨m1, m2, rfl, hp⟩
  · rfl
  · have h1 := hperm.trans hp.symm
    have h2 := h1.trans (perm_rotate2 _ _ _ _).symm
    have h3 := (perm_rotate2 a b c d).trans h1
    have h4 := h3.trans (perm_rotate2 _ _ _ _).symm
    rw [Bool.eq_iff_iff, isRepeatMatch_pair, isRepeatMatch_pair]
    constructor
    · rintro (h | h)
      · exact Or.inr (complement_pair h1 h)
      · exact Or.inl (complement_pair h2 h)
    · rintro (h | h)
      · exact Or.inr (complement_pair h3 h)
      · exact Or.inl (complement_pair h4 h)

/-- In a week that pairs off the teams 1..4, each of them appears in exactly one match. -/
theorem appears_once {m1 m2 : Match} {x : Int}
    (hp : [m1.HomeTeamID, m1.AwayTeamID, m2.HomeTeamID, m2.AwayTeamID].Perm [1, 2, 3, 4])
    (hx : x ∈ ([1, 2, 3, 4] : List Int)) :
    (if appearsIn x m1 then 1 else 0) + (if appearsIn x m2 then 1 else 0) = (1 : Int) := by
  have hc := hp.count_eq x
  have h1 : List.count x ([1, 2, 3, 4] : List Int) = 1 := by
    simp only [List.mem_cons, List.mem_singleton, List.not_mem_nil, or_false] at hx
    rcases hx with rfl | rfl | rfl | rfl <;> decide
  rw [h1] at hc
  simp only [List.count_cons, List.count_nil, beq_iff_eq] at hc
  unfold appearsIn
  simp only [Bool.or_eq_true, beq_iff_eq]
  split_ifs at hc ⊢ <;> omega

theorem reshuffleLoop_of_fresh (prev : List Match) (i fuel : Nat) (teams : List Team)
    (r : Rand) {p : Team × Team} (hp : pairAt teams i = some p)
    (hfresh : isRepeatMatch prev p.1.ID p.2.ID = false) :
    reshuffleLoop prev i fuel teams r = .ok (teams, r) := by
  cases fuel <;> simp [reshuffleLoop, hp, hfresh]

/-- When the reshuffle loop returns, the list is a reordering of the one it was given and
the pair at `i`, `i+1` is not a repeat. -/
theorem reshuffleLoop_ok (prev : List Match) (i : Nat) :
    ∀ (fuel : Nat) (teams : List Team) (r : Rand) (teams1 : List Team) (r1 : Rand),
      reshuffleLoop prev i fuel teams r = .ok (teams1, r1) →
      teams1.Perm teams ∧ ∃ p, pairAt teams1 i = some p ∧
        isRepeatMatch prev p.1.ID p.2.ID = false := by
  intro fuel
  induction fuel with
  | zero =>
    intro teams r teams1 r1 h
    unfold reshuffleLoop at h
    cases hp : pairAt teams i with
    | none => rw [hp] at h; simp at h
    | some p =>
      rw [hp] at h
      by_cases hrep : isRepeatMatch prev p.1.ID p.2.ID = true
      · simp [hrep] at h
      · simp only [hrep, if_false, Result.ok.injEq, Prod.mk.injEq] at h
        obtain ⟨rfl, rfl⟩ := h
        exact ⟨List.Perm.refl _, p, hp, by simpa using hrep⟩
  | succ f ih =>
    intro teams r teams1 r1 h
    unfold reshuffleLoop at h
    cases hp : pairAt teams i with
    | none => rw [hp] at h; simp at h
    | some p =>
      rw [hp] at h
      by_cases hrep : isRepeatMatch prev p.1.ID p.2.ID = true
      · simp only [hrep, if_true] at h
        obtain ⟨hperm, hrest⟩ := ih _ _ _ _ h
        exact ⟨hperm.trans (Shuffle_perm _ _), hrest⟩
      · simp only [hrep, if_false, Result.ok.injEq, Prod.mk.injEq] at h
        obtain ⟨rfl, rfl⟩ := h
        exact ⟨List.Perm.refl _, p, hp, by simpa using hrep⟩

theorem isRepeatMatch_getPrevious (db : DB) (week x y : Int) :
    isRepeatMatch (getPreviousWeekMatches db week) x y =
      isRepeatMatch (matchesOfWeek db week) x y := by
  unfold isRepeatMatch getPreviousWeekMatches matchesOfWeek
  rw [List.any_map]
  rfl

theorem tracksLog_congr {log : List Match} {m m2 : Match} {t : Team}
    (hh : m2.HomeTeamID = m.HomeTeamID) (ha : m2.AwayTeamID = m.AwayTeamID)
    (hs : m2.HomeScore = m.HomeScore) (hs2 : m2.AwayScore = m.AwayScore)
    (h : tracksLog (log ++ [m]) t) : tracksLog (log ++ [m2]) t := by
  have e1 : ∀ x, appearsIn x m2 = appearsIn x m := by
    intro x; unfold appearsIn; rw [hh, ha]
  have e2 : ∀ x, ownScore x m2 = ownScore x m := by
    intro x; unfold ownScore; rw [hh, hs, hs2]
  have e3 : ∀ x, oppScore x m2 = oppScore x m := by
    intro x; unfold oppScore; rw [hh, hs, hs2]
  unfold tracksLog agreesWithLog at h ⊢
  rw [playedFromLog_snoc, pointsFromLog_snoc, gdFromLog_snoc] at h ⊢
  rw [e1, e2, e3]
  exact h

/-- What `playMatch` does to a registry that is in step with its log: it returns, the log
grows by the played match, the ids are kept, and the registry is in step with the new
log. -/
theorem playMatch_tracks (db : DB) (home away week hs as : Int) (r : Rand)
    (hh : registered db home) (ha : registered db away) (hne : home ≠ away)
    (hall : ∀ t ∈ db.teams, tracksLog db.matchLog t) :
    ∃ db2 m, playMatch db home away week hs as r = .ok (db2, (drawScores hs as r).2) ∧
      db2.matchLog = db.matchLog ++ [m] ∧
      m.HomeTeamID = home ∧ m.AwayTeamID = away ∧ m.Week = week ∧
      db2.teams.map (fun t => t.ID) = db.teams.map (fun t => t.ID) ∧
      ∀ t ∈ db2.teams, tracksLog db2.matchLog t := by
  obtain ⟨db2, hplay, hlog, hids, hup⟩ := playMatch_returns db home away week hs as r hh ha
  refine ⟨db2, _, hplay, hlog, rfl, rfl, rfl, hids, ?_⟩
  obtain ⟨db3, hup3, htr, _⟩ := @updateLeagueTable_tracks
    (saveMatch db (mkMatch home away (drawScores hs as r).1.1 (drawScores hs as r).1.2 week))
    db.matchLog
    (mkMatch home away (drawScores hs as r).1.1 (drawScores hs as r).1.2 week)
    hall hh ha hne
  rw [hup] at hup3
  cases hup3
  intro t ht
  rw [hlog]
  exact tracksLog_congr
    (m := mkMatch home away (drawScores hs as r).1.1 (drawScores hs as r).1.2 week)
    rfl rfl rfl rfl (htr t ht)

theorem pairLoop_succ (fuel : Nat) (prev : List Match) (week : Int) (n i : Nat)
    (teams : List Team) (db : DB) (r : Rand) (h : i + 1 < teams.length) :
    pairLoop fuel prev week (n + 1) i teams db r =
      (reshuffleLoop prev i fuel teams r).bind (fun p =>
        match pairAt p.1 i with
        | none => .panic
        | some ab =>
          (playMatch db ab.1.ID ab.2.ID week ab.1.Strength ab.2.Strength p.2).bind (fun q =>
            pairLoop fuel prev week n (i + 2) p.1 q.1 q.2)) := by
  rw [pairLoop, if_pos (by omega), if_pos h]

theorem pairLoop_done (fuel : Nat) (prev : List Match) (week : Int) (n i : Nat)
    (teams : List Team) (db : DB) (r : Rand) (h : ¬ i < teams.length) :
    pairLoop fuel prev week n i teams db r = .ok (db, r) := by
  cases n <;> rw [pairLoop, if_neg h]

theorem length_four {α : Type} {l : List α} (h : l.length = 4) :
    ∃ a b c d, l = [a, b, c, d] := by
  match l, h with
  | [a, b, c, d], _ => exact ⟨a, b, c, d, rfl⟩

theorem scanTeams_ids (db : DB) :
    (scanTeams db).map (fun t => t.ID) = db.teams.map (fun t => t.ID) := by
  unfold scanTeams
  rw [List.map_map]
  rfl

theorem matchesOfWeek_snoc (db db2 : DB) (m : Match) (week : Int)
    (hlog : db2.matchLog = db.matchLog ++ [m]) :
    matchesOfWeek db2 week =
      matchesOfWeek db week ++ (if m.Week = week then [m] else []) := by
  unfold matchesOfWeek
  rw [hlog, List.filter_append]
  by_cases h : m.Week = week
  · have hb : (m.Week == week) = true := by simpa using h
    simp [List.filter, hb, h]
  · have hb : (m.Week == week) = false := by simpa using h
    simp [List.filter, hb, h]

theorem matchesOfWeek_eq_nil (db : DB) (week : Int)
    (h : ∀ m ∈ db.matchLog, m.Week ≠ week) : matchesOfWeek db week = [] := by
  unfold matchesOfWeek
  rw [List.filter_eq_nil_iff]
  intro m hm
  simpa using h m hm

theorem previous_fixture (w : Nat) (db : DB) (hinv : SeasonInv w db) :
    matchesOfWeek db (w : Int) = [] ∨ Fixture4 (matchesOfWeek db (w : Int)) := by
  rcases Nat.eq_zero_or_pos w with rfl | hw
  · left
    apply matchesOfWeek_eq_nil
    intro m hm
    have := hinv.weeks m hm
    simp only [Nat.cast_zero] at this ⊢
    omega
  · right
    exact hinv.fixture hw

/-- One week of the four-team season: if `PlayWeekMatches` returns for week `w + 1` on a
state reached after `w` weeks, the result is a state reached after `w + 1` weeks. -/
theorem week_step (fuel w : Nat) (db : DB) (r : Rand) (db2 : DB) (r2 : Rand)
    (hinv : SeasonInv w db)
    (h : PlayWeekMatches fuel db ((w : Int) + 1) r = .ok (db2, r2)) :
    SeasonInv (w + 1) db2 := by
  unfold PlayWeekMatches at h
  dsimp only at h
  have hids0 : (scanTeams db).map (fun t => t.ID) = [1, 2, 3, 4] :=
    (scanTeams_ids db).trans hinv.ids
  have hlen0 : (scanTeams db).length = 4 := by
    have := congrArg List.length hids0
    simpa using this
  have hsperm := Shuffle_perm (scanTeams db) r
  rw [hlen0, show (4 : Nat) = 3 + 1 from rfl,
    pairLoop_succ _ _ _ _ _ _ _ _ (by rw [hsperm.length_eq, hlen0]; decide)] at h
  obtain ⟨p1, hre1, h⟩ := Result.bind_eq_ok h
  obtain ⟨hperm1, ab, hab, hfresh1⟩ := reshuffleLoop_ok _ _ _ _ _ p1.1 p1.2 hre1
  have hperm : p1.1.Perm (scanTeams db) := hperm1.trans hsperm
  obtain ⟨a, b, c, d, hp1⟩ := length_four (hperm.length_eq.trans hlen0)
  have hidp : [a.ID, b.ID, c.ID, d.ID].Perm [1, 2, 3, 4] := by
    have := hperm.map (fun t => t.ID)
    rw [hp1, hids0] at this
    exact this
  have hfacts := perm4_facts hidp
  have hreg : ∀ x ∈ ([1, 2, 3, 4] : List Int), ∀ d0 : DB,
      d0.teams.map (fun t => t.ID) = [1, 2, 3, 4] → registered d0 x := by
    intro x hx d0 hd0
    rw [registered_iff_mem_ids, hd0]
    exact hx
  have hain : a.ID ∈ ([1, 2, 3, 4] : List Int) := hidp.subset (by simp)
  have hbin : b.ID ∈ ([1, 2, 3, 4] : List Int) := hidp.subset (by simp)
  have hcin : c.ID ∈ ([1, 2, 3, 4] : List Int) := hidp.subset (by simp)
  have hdin : d.ID ∈ ([1, 2, 3, 4] : List Int) := hidp.subset (by simp)
  -- the first pair
  rw [hp1] at hab h
  have hab2 : ab = (a, b) := by
    simpa [pairAt] using hab.symm
  subst hab2
  rw [show pairAt [a, b, c, d] 0 = some (a, b) from rfl] at h
  dsimp only at h
  obtain ⟨db1, m1, hplay1, hlog1, hm1h, hm1a, hm1w, hids1, htr1⟩ :=
    playMatch_tracks db a.ID b.ID ((w : Int) + 1) a.Strength b.Strength p1.2
      (hreg _ hain db hinv.ids) (hreg _ hbin db hinv.ids) hfacts.2.2.2.2.1 hinv.tracks
  rw [hplay1] at h
  simp only [Result.bind] at h
  -- the second pair is no repeat either, so the list is not reshuffled
  rw [show (3 : Nat) = 2 + 1 from rfl,
    pairLoop_succ _ _ _ _ _ _ _ _ (by simp only [List.length_cons, List.length_nil]; omega)] at h
  have hprev : getPreviousWeekMatches db ((w : Int) + 1 - 1) = [] ∨
      Fixture4 (getPreviousWeekMatches db ((w : Int) + 1 - 1)) := by
    rw [show (w : Int) + 1 - 1 = (w : Int) by omega]
    unfold getPreviousWeekMatches
    rcases previous_fixture w db hinv with h0 | ⟨n1, n2, h12, hp12⟩
    · left
      unfold matchesOfWeek at h0
      rw [h0]
      rfl
    · right
      unfold matchesOfWeek at h12
      rw [h12]
      exact ⟨_, _, rfl, hp12⟩
  have hfresh2 : isRepeatMatch (getPreviousWeekMatches db ((w : Int) + 1 - 1)) c.ID d.ID
      = false := by
    rw [← repeat_complement _ hprev a.ID b.ID c.ID d.ID hidp]
    exact hfresh1
  rw [reshuffleLoop_of_fresh _ 2 fuel [a, b, c, d] _
      (show pairAt [a, b, c, d] 2 = some (c, d) from rfl) hfresh2] at h
  simp only [Result.bind] at h
  rw [show pairAt [a, b, c, d] 2 = some (c, d) from rfl] at h
  dsimp only at h
  obtain ⟨db3, m2, hplay2, hlog2, hm2h, hm2a, hm2w, hids2, htr2⟩ :=
    playMatch_tracks db1 c.ID d.ID ((w : Int) + 1) c.Strength d.Strength
      (drawScores a.Strength b.Strength p1.2).2
      (hreg _ hcin db1 (hids1.trans hinv.ids)) (hreg _ hdin db1 (hids1.trans hinv.ids))
      hfacts.2.2.2.2.2.2.2.2.2 htr1
  rw [hplay2] at h
  simp only [Result.bind] at h
  rw [pairLoop_done _ _ _ _ _ _ _ _
    (by simp only [List.length_cons, List.length_nil]; omega)] at h
  simp only [Result.ok.injEq, Prod.mk.injEq] at h
  obtain ⟨rfl, _⟩ := h
  -- the state after the week
  have hfix : [m1.HomeTeamID, m1.AwayTeamID, m2.HomeTeamID, m2.AwayTeamID].Perm
      [1, 2, 3, 4] := by
    rw [hm1h, hm1a, hm2h, hm2a]; exact hidp
  have hweekOld : ∀ m ∈ db.matchLog, m.Week ≠ (w : Int) + 1 := by
    intro m hm
    have := hinv.weeks m hm
    omega
  have hnow : matchesOfWeek db3 ((w : Int) + 1) = [m1, m2] := by
    rw [matchesOfWeek_snoc db1 db3 m2 _ hlog2, matchesOfWeek_snoc db db1 m1 _ hlog1,
      matchesOfWeek_eq_nil db _ hweekOld, if_pos hm1w, if_pos hm2w]
    rfl
  have hbefore : matchesOfWeek db3 (w : Int) = matchesOfWeek db (w : Int) := by
    rw [matchesOfWeek_snoc db1 db3 m2 _ hlog2, matchesOfWeek_snoc db db1 m1 _ hlog1,
      if_neg (by omega), if_neg (by omega)]
    simp
  refine ⟨hids2.trans (hids1.trans hinv.ids), htr2, ?_, ?_, ?_, ?_, ?_⟩
  · intro x hx
    rw [hlog2, hlog1, playedFromLog_snoc, playedFromLog_snoc, hinv.played x hx]
    have := appears_once hfix hx
    push_cast
    omega
  · intro m hm
    rw [hlog2, hlog1] at hm
    simp only [List.mem_append, List.mem_singleton] at hm
    rcases hm with (hm | rfl) | rfl
    · have := hinv.weeks m hm
      push_cast
      omega
    · push_cast; omega
    · push_cast; omega
  · rw [hlog2, hlog1, List.length_append, List.length_append, hinv.logLength]
    simp only [List.length_singleton]
    omega
  · intro _
    rw [show ((w + 1 : Nat) : Int) = (w : Int) + 1 by push_cast; rfl, hnow]
    exact ⟨m1, m2, rfl, hfix⟩
  · intro _ m hm
    rw [show ((w + 1 : Nat) : Int) = (w : Int) + 1 by push_cast; rfl] at hm ⊢
    rw [hnow] at hm
    rw [show (w : Int) + 1 - 1 = (w : Int) by omega, hbefore]
    rw [show (w : Int) + 1 - 1 = (w : Int) by omega, isRepeatMatch_getPrevious] at hfresh1 hfresh2
    simp only [List.mem_cons, List.mem_singleton, List.not_mem_nil, or_false] at hm
    rcases hm with rfl | rfl
    · rw [hm1h, hm1a]; exact hfresh1
    · rw [hm2h, hm2a]; exact hfresh2

theorem seeded_state (r : Rand) :
    ∃ s1 s2 s3 s4, (SeedDatabase SetupDatabase r).1 =
      { teams := [seedRow 1 "Chelsea" s1, seedRow 2 "Arsenal" s2,
                  seedRow 3 "Manchester City" s3, seedRow 4 "Liverpool" s4],
        matchLog := [] } :=
  ⟨_, _, _, _, rfl⟩

theorem seeded_inv (r : Rand) : SeasonInv 0 (SeedDatabase SetupDatabase r).1 := by
  obtain ⟨s1, s2, s3, s4, h⟩ := seeded_state r
  rw [h]
  refine ⟨rfl, ?_, ?_, ?_, rfl, ?_, ?_⟩
  · intro t ht
    apply zeroed_tracksLog
    simp only [List.mem_cons, List.mem_singleton, List.not_mem_nil, or_false] at ht
    rcases ht with rfl | rfl | rfl | rfl <;> simp [zeroed, seedRow]
  · intro x _
    rfl
  · intro m hm
    simp at hm
  · intro h0
    omega
  · intro h0
    omega

theorem weeksUpTo_succ (w : Nat) : weeksUpTo (w + 1) = weeksUpTo w ++ [(w : Int) + 1] := by
  unfold weeksUpTo
  rw [List.range_succ, List.map_append]
  rfl

theorem playWeeks_append (fuel : Nat) (ws vs : List Int) :
    ∀ (db : DB) (r : Rand),
      playWeeks fuel (ws ++ vs) db r =
        (playWeeks fuel ws db r).bind (fun p => playWeeks fuel vs p.1 p.2) := by
  induction ws with
  | nil => intro db r; rfl
  | cons x xs ih =>
    intro db r
    show (PlayWeekMatches fuel db x r).bind _ = ((PlayWeekMatches fuel db x r).bind _).bind _
    cases PlayWeekMatches fuel db x r with
    | ok p => exact ih p.1 p.2
    | panic => rfl
    | timeout => rfl

theorem isOk_bind {α β : Type} {x : Result α} {f : α → Result β}
    (h : (x.bind f).isOk = true) : ∃ a, x = .ok a := by
  cases x with
  | ok a => exact ⟨a, rfl⟩
  | panic => simp [Result.bind, Result.isOk] at h
  | timeout => simp [Result.bind, Result.isOk] at h

theorem weeksUpTo_add (w k : Nat) : ∃ rest, weeksUpTo (w + k) = weeksUpTo w ++ rest := by
  induction k with
  | zero => exact ⟨[], by simp⟩
  | succ k ih =>
    obtain ⟨rest, h⟩ := ih
    refine ⟨rest ++ [((w + k : Nat) : Int) + 1], ?_⟩
    rw [← Nat.add_assoc, weeksUpTo_succ, h, List.append_assoc]

theorem playWeeks_prefix (fuel w n : Nat) (hw : w ≤ n) (db : DB) (r : Rand)
    (h : (playWeeks fuel (weeksUpTo n) db r).isOk = true) :
    ∃ p, playWeeks fuel (weeksUpTo w) db r = .ok p := by
  obtain ⟨rest, hrest⟩ := weeksUpTo_add w (n - w)
  rw [show w + (n - w) = n by omega] at hrest
  rw [hrest, playWeeks_append] at h
  exact isOk_bind h

/-- Every state reached by playing the weeks 1..w in order from the seeded registry is a
state of the four-team season after `w` weeks. -/
theorem season_inv (fuel : Nat) (r : Rand) (w : Nat) :
    ∀ (db : DB) (rw : Rand),
      playWeeks fuel (weeksUpTo w) (SeedDatabase SetupDatabase r).1
        (SeedDatabase SetupDatabase r).2 = .ok (db, rw) →
      SeasonInv w db := by
  induction w with
  | zero =>
    intro db rw h
    have h2 : (SeedDatabase SetupDatabase r).1 = db := by
      have h3 : Result.ok ((SeedDatabase SetupDatabase r).1, (SeedDatabase SetupDatabase r).2)
          = Result.ok (db, rw) := h
      simp only [Result.ok.injEq, Prod.mk.injEq] at h3
      exact h3.1
    rw [← h2]
    exact seeded_inv r
  | succ w ih =>
    intro db rw h
    rw [weeksUpTo_succ, playWeeks_append] at h
    obtain ⟨p, hp, h2⟩ := Result.bind_eq_ok h
    have hinv := ih p.1 p.2 hp
    have h3 : (PlayWeekMatches fuel p.1 ((w : Int) + 1) p.2).bind
        (fun q => Result.ok (q.1, q.2)) = .ok (db, rw) := h2
    obtain ⟨q, hq, h4⟩ := Result.bind_eq_ok h3
    simp only [Result.ok.injEq, Prod.mk.injEq] at h4
    obtain ⟨rfl, rfl⟩ := h4
    exact week_step fuel w p.1 p.2 q.1 q.2 hinv hq

theorem appearances_pair (x : Int) (m1 m2 : Match) :
    ((appearances x [m1, m2] : Nat) : Int) =
      (if appearsIn x m1 then 1 else 0) + (if appearsIn x m2 then 1 else 0) := by
  unfold appearances
  cases h1 : appearsIn x m1 <;> cases h2 : appearsIn x m2 <;> simp [List.filter, h1, h2]

/-- C7. From the freshly seeded registry of four teams with an empty match log, for
every stream of shuffle and score draws and every fuel under which the weeks 1..5, played
in order by `PlayWeekMatches`, all finish: for each week w in 1..5 the run of the weeks
1..w returns, and the state after week w has four teams, exactly two matches of week w (and 2w matches in all), every team
appears in exactly one match of week w, every team has played exactly w matches, and no
match of week w pairs two teams that met in week w - 1. -/
theorem four_team_season (fuel : Nat) (r : Rand)
    (hrun : (playWeeks fuel (weeksUpTo 5) (SeedDatabase SetupDatabase r).1
      (SeedDatabase SetupDatabase r).2).isOk = true)
    (w : Nat) (hw1 : 1 ≤ w) (hw5 : w ≤ 5) :
    ∃ db rw, playWeeks fuel (weeksUpTo w) (SeedDatabase SetupDatabase r).1
        (SeedDatabase SetupDatabase r).2 = .ok (db, rw) ∧
      db.teams.length = 4 ∧
      (matchesOfWeek db (w : Int)).length = 2 ∧
      db.matchLog.length = 2 * w ∧
      perfectMatching db (matchesOfWeek db (w : Int)) ∧
      (∀ t ∈ db.teams, t.Played = (w : Int)) ∧
      (∀ m ∈ matchesOfWeek db (w : Int),
        isRepeatMatch (matchesOfWeek db ((w : Int) - 1)) m.HomeTeamID m.AwayTeamID
          = false) := by
  obtain ⟨p, hp⟩ := playWeeks_prefix fuel w 5 hw5 _ _ hrun
  have hinv := season_inv fuel r w p.1 p.2 hp
  obtain ⟨m1, m2, hms, hfix⟩ := hinv.fixture hw1
  have hmem : ∀ t ∈ p.1.teams, t.ID ∈ ([1, 2, 3, 4] : List Int) := by
    intro t ht
    rw [← hinv.ids]
    exact List.mem_map.2 ⟨t, ht, rfl⟩
  refine ⟨p.1, p.2, hp, ?_, ?_, hinv.logLength, ?_, ?_, hinv.fresh hw1⟩
  · have := congrArg List.length hinv.ids
    simpa using this
  · rw [hms]; rfl
  · intro t ht
    rw [hms]
    have h1 := appearances_pair t.ID m1 m2
    have h2 := appears_once hfix (hmem t ht)
    omega
  · intro t ht
    rw [(hinv.tracks t ht).1.1]
    exact hinv.played _ (hmem t ht)

/-- C7 on a concrete stream for which all five weeks finish, read at week 1 and at
week 5. -/
theorem four_team_season_witness :
    (∃ db rw, playWeeks 3 (weeksUpTo 1) (SeedDatabase SetupDatabase seasonStream).1
        (SeedDatabase SetupDatabase seasonStream).2 = .ok (db, rw) ∧
      db.teams.length = 4 ∧
      (matchesOfWeek db ((1 : Nat) : Int)).length = 2 ∧
      db.matchLog.length = 2 * 1 ∧
      perfectMatching db (matchesOfWeek db ((1 : Nat) : Int)) ∧
      (∀ t ∈ db.teams, t.Played = ((1 : Nat) : Int)) ∧
      (∀ m ∈ matchesOfWeek db ((1 : Nat) : Int),
        isRepeatMatch (matchesOfWeek db (((1 : Nat) : Int) - 1)) m.HomeTeamID m.AwayTeamID
          = false)) ∧
    (∃ db rw, playWeeks 3 (weeksUpTo 5) (SeedDatabase SetupDatabase seasonStream).1
        (SeedDatabase SetupDatabase seasonStream).2 = .ok (db, rw) ∧
      db.teams.length = 4 ∧
      (matchesOfWeek db ((5 : Nat) : Int)).length = 2 ∧
      db.matchLog.length = 2 * 5 ∧
      perfectMatching db (matchesOfWeek db ((5 : Nat) : Int)) ∧
      (∀ t ∈ db.teams, t.Played = ((5 : Nat) : Int)) ∧
      (∀ m ∈ matchesOfWeek db ((5 : Nat) : Int),
        isRepeatMatch (matchesOfWeek db (((5 : Nat) : Int) - 1)) m.HomeTeamID m.AwayTeamID
          = false)) :=
  ⟨four_team_season 3 seasonStream (by decide!) 1 (by decide) (by decide),
   four_team_season 3 seasonStream (by decide!) 5 (by decide) (by decide)⟩

/-! ## C14: the weaker side never wins -/

theorem selectTeam_writeStats (db : DB) (team : Team) (x : Int) :
    selectTeam { db with teams := db.teams.map (writeStats team) } x =
      (selectTeam db x).map (writeStats team) := by
  unfold selectTeam
  dsimp only
  rw [List.find?_map]
  have hp : ((fun t : Team => t.ID == x) ∘ writeStats team) = (fun t : Team => t.ID == x) := by
    funext t
    simp only [Function.comp, writeStats_ID]
  rw [hp]

theorem bumpStats_Won (row : Team) (gf ga : Int) :
    (bumpStats row gf ga).Won = row.Won + (if gf > ga then 1 else 0) := by
  unfold bumpStats; split_ifs <;> simp

theorem bumpStats_Lost (row : Team) (gf ga : Int) :
    (bumpStats row gf ga).Lost = row.Lost + (if gf < ga then 1 else 0) := by
  unfold bumpStats; split_ifs <;> simp <;> omega

theorem writeStats_Won_of_eq {team t : Team} (h : t.ID = team.ID) :
    (writeStats team t).Won = team.Won := by
  unfold writeStats; rw [if_pos h]

theorem writeStats_Lost_of_eq {team t : Team} (h : t.ID = team.ID) :
    (writeStats team t).Lost = team.Lost := by
  unfold writeStats; rw [if_pos h]

/-- What one call of `updateTeamStats` does to the rows the store returns for an id: the
row of another id is untouched, the row of the updated id gains a win exactly when it
scored more and a loss exactly when it scored less. -/
theorem updateTeamStats_select {db : DB} {teamID : Int} (gf ga : Int)
    (h : registered db teamID) :
    ∃ db1, updateTeamStats db teamID gf ga = .ok db1 ∧
      (∀ x, registered db1 x ↔ registered db x) ∧
      (∀ x, x ≠ teamID → selectTeam db1 x = selectTeam db x) ∧
      (selectTeam db1 teamID).map (fun t => t.Won) =
        (selectTeam db teamID).map (fun t => t.Won + (if gf > ga then 1 else 0)) ∧
      (selectTeam db1 teamID).map (fun t => t.Lost) =
        (selectTeam db teamID).map (fun t => t.Lost + (if gf < ga then 1 else 0)) := by
  obtain ⟨row, hsel, _, hid, hup⟩ := updateTeamStats_ok gf ga h
  refine ⟨_, hup, fun x => registered_map_writeStats _ x, ?_, ?_, ?_⟩
  · intro x hx
    rw [selectTeam_writeStats]
    cases hs : selectTeam db x with
    | none => rfl
    | some t =>
      have ht := (selectTeam_some hs).2
      rw [Option.map_some', writeStats_of_ne (by rw [bumpStats_ID, hid, ht]; exact hx)]
  · rw [selectTeam_writeStats, hsel]
    simp only [Option.map_some']
    rw [writeStats_Won_of_eq (bumpStats_ID row gf ga).symm, bumpStats_Won]
  · rw [selectTeam_writeStats, hsel]
    simp only [Option.map_some']
    rw [writeStats_Lost_of_eq (bumpStats_ID row gf ga).symm, bumpStats_Lost]

/-- After `updateLeagueTable` for a match between two distinct registered teams in which
the home side did not score less, the away team's won count and the home team's lost
count are the ones from before. -/
theorem updateLeagueTable_home_ahead {db : DB} (m : Match)
    (hh : registered db m.HomeTeamID) (ha : registered db m.AwayTeamID)
    (hne : m.HomeTeamID ≠ m.AwayTeamID) (hsc : m.AwayScore ≤ m.HomeScore) :
    ∃ db2, updateLeagueTable db m = .ok db2 ∧
      (selectTeam db2 m.AwayTeamID).map (fun t => t.Won) =
        (selectTeam db m.AwayTeamID).map (fun t => t.Won) ∧
      (selectTeam db2 m.HomeTeamID).map (fun t => t.Lost) =
        (selectTeam db m.HomeTeamID).map (fun t => t.Lost) := by
  obtain ⟨db1, h1, hreg1, hoth1, _, hlost1⟩ :=
    updateTeamStats_select m.HomeScore m.AwayScore hh
  obtain ⟨db2, h2, _, hoth2, hwon2, _⟩ :=
    updateTeamStats_select m.AwayScore m.HomeScore ((hreg1 _).2 ha)
  refine ⟨db2, ?_, ?_, ?_⟩
  · unfold updateLeagueTable
    rw [h1]
    exact h2
  · rw [hwon2, hoth1 _ (Ne.symm hne), if_neg (by omega)]
    simp
  · rw [hoth2 _ hne, hlost1, if_neg (by omega)]
    simp

/-- The mirror image: the away side did not score less. -/
theorem updateLeagueTable_away_ahead {db : DB} (m : Match)
    (hh : registered db m.HomeTeamID) (ha : registered db m.AwayTeamID)
    (hne : m.HomeTeamID ≠ m.AwayTeamID) (hsc : m.HomeScore ≤ m.AwayScore) :
    ∃ db2, updateLeagueTable db m = .ok db2 ∧
      (selectTeam db2 m.HomeTeamID).map (fun t => t.Won) =
        (selectTeam db m.HomeTeamID).map (fun t => t.Won) ∧
      (selectTeam db2 m.AwayTeamID).map (fun t => t.Lost) =
        (selectTeam db m.AwayTeamID).map (fun t => t.Lost) := by
  obtain ⟨db1, h1, hreg1, hoth1, hwon1, _⟩ :=
    updateTeamStats_select m.HomeScore m.AwayScore hh
  obtain ⟨db2, h2, _, hoth2, _, hlost2⟩ :=
    updateTeamStats_select m.AwayScore m.HomeScore ((hreg1 _).2 ha)
  refine ⟨db2, ?_, ?_, ?_⟩
  · unfold updateLeagueTable
    rw [h1]
    exact h2
  · rw [hoth2 _ hne, hwon1, if_neg (by omega)]
    simp
  · rw [hlost2, hoth1 _ (Ne.symm hne), if_neg (by omega)]
    simp

/-- C14. For unequal strengths and every stream of random draws (the 0-0 re-draw
included) the final score of the higher-strength side is at least that of the
lower-strength side, whichever side is home.  Consequently, for two distinct registered
teams `playMatch` returns, and after its `updateLeagueTable` the won count of the
lower-strength team and the lost count of the higher-strength team are what they were
before the match. -/
theorem weaker_never_wins (db : DB) (home away week homeStrength awayStrength : Int)
    (r : Rand) (hh : registered db home) (ha : registered db away) (hne : home ≠ away)
    (hstr : homeStrength ≠ awayStrength) :
    strongerNotBehind homeStrength awayStrength r = true ∧
    (homeStrength > awayStrength →
      (drawScores homeStrength awayStrength r).1.2 ≤
        (drawScores homeStrength awayStrength r).1.1) ∧
    (homeStrength < awayStrength →
      (drawScores homeStrength awayStrength r).1.1 ≤
        (drawScores homeStrength awayStrength r).1.2) ∧
    ∃ db2, playMatch db home away week homeStrength awayStrength r =
        .ok (db2, (drawScores homeStrength awayStrength r).2) ∧
      updateLeagueTable
        (saveMatch db (mkMatch home away (drawScores homeStrength awayStrength r).1.1
          (drawScores homeStrength awayStrength r).1.2 week))
        (mkMatch home away (drawScores homeStrength awayStrength r).1.1
          (drawScores homeStrength awayStrength r).1.2 week) = .ok db2 ∧
      (homeStrength > awayStrength →
        (selectTeam db2 away).map (fun t => t.Won) =
          (selectTeam db away).map (fun t => t.Won) ∧
        (selectTeam db2 home).map (fun t => t.Lost) =
          (selectTeam db home).map (fun t => t.Lost)) ∧
      (homeStrength < awayStrength →
        (selectTeam db2 home).map (fun t => t.Won) =
          (selectTeam db home).map (fun t => t.Won) ∧
        (selectTeam db2 away).map (fun t => t.Lost) =
          (selectTeam db away).map (fun t => t.Lost)) := by
  have hhome : homeStrength > awayStrength →
      (drawScores homeStrength awayStrength r).1.2 ≤
        (drawScores homeStrength awayStrength r).1.1 := fun h =>
    redraw_home_stronger _ _ _ _ h (firstDraw_home_stronger _ _ r h)
  have haway : homeStrength < awayStrength →
      (drawScores homeStrength awayStrength r).1.1 ≤
        (drawScores homeStrength awayStrength r).1.2 := fun h =>
    redraw_away_stronger _ _ _ _ h (firstDraw_away_stronger _ _ r h)
  refine ⟨stronger_never_behind _ _ r hstr, hhome, haway, ?_⟩
  obtain ⟨db2, hplay, _, _, hup⟩ :=
    playMatch_returns db home away week homeStrength awayStrength r hh ha
  refine ⟨db2, hplay, hup, ?_, ?_⟩
  · intro h
    obtain ⟨db3, h3, hwon, hlost⟩ := @updateLeagueTable_home_ahead
      (saveMatch db (mkMatch home away (drawScores homeStrength awayStrength r).1.1
        (drawScores homeStrength awayStrength r).1.2 week))
      (mkMatch home away (drawScores homeStrength awayStrength r).1.1
        (drawScores homeStrength awayStrength r).1.2 week) hh ha hne (hhome h)
    rw [hup] at h3
    cases h3
    exact ⟨hwon, hlost⟩
  · intro h
    obtain ⟨db3, h3, hwon, hlost⟩ := @updateLeagueTable_away_ahead
      (saveMatch db (mkMatch home away (drawScores homeStrength awayStrength r).1.1
        (drawScores homeStrength awayStrength r).1.2 week))
      (mkMatch home away (drawScores homeStrength awayStrength r).1.1
        (drawScores homeStrength awayStrength r).1.2 week) hh ha hne (haway h)
    rw [hup] at h3
    cases h3
    exact ⟨hwon, hlost⟩

/-- C14 at the four-team registry: Liverpool (strength 1) hosts Manchester City
(strength 4), with first draws 3 and 1 that the code swaps. -/
theorem weaker_never_wins_witness :
    strongerNotBehind 1 4 (Rand.ofList [3, 1]) = true ∧
    ((1 : Int) > 4 →
      (drawScores 1 4 (Rand.ofList [3, 1])).1.2 ≤ (drawScores 1 4 (Rand.ofList [3, 1])).1.1) ∧
    ((1 : Int) < 4 →
      (drawScores 1 4 (Rand.ofList [3, 1])).1.1 ≤ (drawScores 1 4 (Rand.ofList [3, 1])).1.2) ∧
    ∃ db2, playMatch demoDB 4 3 1 1 4 (Rand.ofList [3, 1]) =
        .ok (db2, (drawScores 1 4 (Rand.ofList [3, 1])).2) ∧
      updateLeagueTable
        (saveMatch demoDB (mkMatch 4 3 (drawScores 1 4 (Rand.ofList [3, 1])).1.1
          (drawScores 1 4 (Rand.ofList [3, 1])).1.2 1))
        (mkMatch 4 3 (drawScores 1 4 (Rand.ofList [3, 1])).1.1
          (drawScores 1 4 (Rand.ofList [3, 1])).1.2 1) = .ok db2 ∧
      ((1 : Int) > 4 →
        (selectTeam db2 3).map (fun t => t.Won) =
          (selectTeam demoDB 3).map (fun t => t.Won) ∧
        (selectTeam db2 4).map (fun t => t.Lost) =
          (selectTeam demoDB 4).map (fun t => t.Lost)) ∧
      ((1 : Int) < 4 →
        (selectTeam db2 4).map (fun t => t.Won) =
          (selectTeam demoDB 4).map (fun t => t.Won) ∧
        (selectTeam db2 3).map (fun t => t.Lost) =
          (selectTeam demoDB 3).map (fun t => t.Lost)) :=
  weaker_never_wins demoDB 4 3 1 1 4 (Rand.ofList [3, 1])
    (by decide) (by decide) (by decide) (by decide)

/-! ## C13: pairing exhaustion -/

/-- If the pair at `i`, `i+1` is a repeat in every reordering of the list, the reshuffle
loop is still running when its fuel is spent, whatever the fuel and the draws. -/
theorem reshuffleLoop_timeout (prev : List Match) (i : Nat) (base : List Team)
    (hall : ∀ l : List Team, l.Perm base → pairRepeats prev l i) :
    ∀ (fuel : Nat) (teams : List Team) (r : Rand), teams.Perm base →
      reshuffleLoop prev i fuel teams r = .timeout := by
  intro fuel
  induction fuel with
  | zero =>
    intro teams r hperm
    obtain ⟨p, hp, hrep⟩ := hall teams hperm
    unfold reshuffleLoop
    rw [hp]
    simp only [hrep, if_true]
  | succ f ih =>
    intro teams r hperm
    obtain ⟨p, hp, hrep⟩ := hall teams hperm
    unfold reshuffleLoop
    rw [hp]
    simp only [hrep, if_true]
    exact ih _ _ ((Shuffle_perm teams r).trans hperm)

/-- With at least two teams, if the first pair is a repeat in every ordering of the
teams, `PlayWeekMatches` does not finish within any fuel. -/
theorem PlayWeekMatches_timeout (fuel : Nat) (db : DB) (week : Int) (r : Rand)
    (hlen : 2 ≤ (scanTeams db).length)
    (hall : ∀ l : List Team, l.Perm (scanTeams db) →
      pairRepeats (getPreviousWeekMatches db (week - 1)) l 0) :
    PlayWeekMatches fuel db week r = .timeout := by
  unfold PlayWeekMatches
  dsimp only
  have hsperm := Shuffle_perm (scanTeams db) r
  obtain ⟨n, hn⟩ : ∃ n, (scanTeams db).length = n + 1 := ⟨(scanTeams db).length - 1, by omega⟩
  rw [hn, pairLoop_succ _ _ _ _ _ _ _ _ (by rw [hsperm.length_eq]; omega),
    reshuffleLoop_timeout _ 0 (scanTeams db) hall fuel _ _ hsperm]
  rfl

theorem all_pairs_repeat (x y : Int) (hx : 1 ≤ x ∧ x ≤ 4) (hy : 1 ≤ y ∧ y ≤ 4) (hxy : x ≠ y) :
    isRepeatMatch (getPreviousWeekMatches allPairsMet (2 - 1)) x y = true := by
  have hx2 : x = 1 ∨ x = 2 ∨ x = 3 ∨ x = 4 := by omega
  have hy2 : y = 1 ∨ y = 2 ∨ y = 3 ∨ y = 4 := by omega
  rcases hx2 with rfl | rfl | rfl | rfl <;> rcases hy2 with rfl | rfl | rfl | rfl <;>
    first
      | exact absurd rfl hxy
      | decide

theorem twoTeamsMet_repeats (l : List Team) (h : l.Perm (scanTeams twoTeamsMet)) :
    pairRepeats (getPreviousWeekMatches twoTeamsMet (2 - 1)) l 0 := by
  have hlen : l.length = 2 := h.length_eq
  match l, hlen with
  | [a, b], _ =>
    have hid : [a.ID, b.ID].Perm [1, 2] := h.map (fun t : Team => t.ID)
    refine ⟨(a, b), rfl, ?_⟩
    rcases perm_pair hid with ⟨h1, h2⟩ | ⟨h1, h2⟩
    · dsimp only
      rw [← h1, ← h2]
      decide
    · dsimp only
      rw [← h1, ← h2]
      decide

theorem allPairsMet_repeats (l : List Team) (h : l.Perm (scanTeams allPairsMet)) :
    pairRepeats (getPreviousWeekMatches allPairsMet (2 - 1)) l 0 := by
  obtain ⟨a, b, c, d, rfl⟩ := length_four (show l.length = 4 from h.length_eq)
  have hid : [a.ID, b.ID, c.ID, d.ID].Perm [1, 2, 3, 4] := h.map (fun t : Team => t.ID)
  have hf := perm4_facts hid
  exact ⟨(a, b), rfl, all_pairs_repeat _ _ hf.1 hf.2.1 hf.2.2.2.2.1⟩

/-- C13. There are registries in which every candidate pair is a repeat: two teams that
met in the previous week, and four teams whose previous week holds all six unordered
pairs (reached by simulating week 1 three times).  For these, in every reordering of the
teams the loop condition `isRepeatMatch(previousWeekMatches, teams[i].ID, teams[i+1].ID)`
is true, so for every stream of shuffle draws and every fuel `PlayWeekMatches` for week 2
is still reshuffling when the fuel is spent: it never finishes, and the loop has no retry
bound or fallback. -/
theorem pairing_exhaustion (fuel : Nat) (r : Rand) :
    PlayWeekMatches fuel twoTeamsMet 2 r = .timeout ∧
    PlayWeekMatches fuel allPairsMet 2 r = .timeout ∧
    (∀ l : List Team, l.Perm (scanTeams twoTeamsMet) →
      pairRepeats (getPreviousWeekMatches twoTeamsMet (2 - 1)) l 0) ∧
    (∀ l : List Team, l.Perm (scanTeams allPairsMet) →
      pairRepeats (getPreviousWeekMatches allPairsMet (2 - 1)) l 0) ∧
    (PlayWeekMatches 0 twoTeamDB 1 (Rand.ofList [1, 2, 1])).map (fun p => p.1)
      = .ok twoTeamsMet ∧
    (playWeeks 0 [1, 1, 1] demoDB
        (Rand.ofList [3, 2, 1, 2, 1, 2, 1, 3, 1, 1, 2, 1, 2, 1, 1, 2, 1, 2, 1, 2, 1])).map
        (fun p => p.1)
      = .ok allPairsMet := by
  refine ⟨?_, ?_, twoTeamsMet_repeats, allPairsMet_repeats, ?_, ?_⟩
  · exact PlayWeekMatches_timeout fuel twoTeamsMet 2 r (by decide) twoTeamsMet_repeats
  · exact PlayWeekMatches_timeout fuel allPairsMet 2 r (by decide) allPairsMet_repeats
  · decide!
  · decide!

/-! ## C11: the stored strength stays in range -/

theorem seedOne_inRange (acc : DB × Rand) (name : String) (h : strengthsInRange acc.1) :
    strengthsInRange (seedOne acc name).1 := by
  intro t ht
  unfold seedOne at ht
  dsimp only at ht
  rcases List.mem_append.1 ht with h1 | h1
  · exact h t h1
  · rw [List.mem_singleton] at h1
    subst h1
    have := Intn_lt 4 acc.2 (by decide)
    unfold seedRow
    dsimp only
    omega

theorem foldl_seedOne_inRange (names : List String) :
    ∀ acc : DB × Rand, strengthsInRange acc.1 →
      strengthsInRange (names.foldl seedOne acc).1 := by
  induction names with
  | nil => intro acc h; exact h
  | cons n ns ih =>
    intro acc h
    exact ih _ (seedOne_inRange acc n h)

theorem seeded_inRange (r : Rand) : strengthsInRange (SeedDatabase SetupDatabase r).1 := by
  unfold SeedDatabase
  apply foldl_seedOne_inRange
  intro t ht
  simp [SetupDatabase] at ht

theorem setStrength_ids (db : DB) (team : String) (strength : Int) :
    (setStrength db team strength).teams.map (fun t => t.ID) =
      db.teams.map (fun t => t.ID) := by
  unfold setStrength
  dsimp only
  rw [List.map_map]
  apply List.map_congr_left
  intro t _
  simp only [Function.comp]
  split_ifs <;> rfl

theorem changeOne_ids (db : DB) (entry : String × Int) :
    (changeOne db entry).teams.map (fun t => t.ID) = db.teams.map (fun t => t.ID) := by
  unfold changeOne
  split_ifs
  · rfl
  · exact setStrength_ids _ _ _

theorem changeOne_inRange (db : DB) (entry : String × Int) (h : strengthsInRange db) :
    strengthsInRange (changeOne db entry) := by
  unfold changeOne
  split_ifs with hbad
  · exact h
  · intro t ht
    unfold setStrength at ht
    dsimp only at ht
    obtain ⟨u, hu, rfl⟩ := List.mem_map.1 ht
    split_ifs
    · dsimp only
      omega
    · exact h u hu

theorem changeStrengthsHandler_keeps (body : Option (List (String × Int))) :
    ∀ db : DB, strengthsInRange db →
      strengthsInRange (changeStrengthsHandler body db) ∧
      (changeStrengthsHandler body db).teams.map (fun t => t.ID) =
        db.teams.map (fun t => t.ID) := by
  cases body with
  | none => intro db h; exact ⟨h, rfl⟩
  | some strengths =>
    induction strengths with
    | nil => intro db h; exact ⟨h, rfl⟩
    | cons e es ih =>
      intro db h
      obtain ⟨h1, h2⟩ := ih (changeOne db e) (changeOne_inRange db e h)
      exact ⟨h1, h2.trans (changeOne_ids db e)⟩

theorem updateTeamStats_inRange {db db1 : DB} {teamID gf ga : Int}
    (hup : updateTeamStats db teamID gf ga = .ok db1) (h : strengthsInRange db) :
    strengthsInRange db1 ∧
      db1.teams.map (fun t => t.ID) = db.teams.map (fun t => t.ID) := by
  unfold updateTeamStats at hup
  cases hsel : selectTeam db teamID with
  | none => rw [hsel] at hup; simp at hup
  | some row =>
    rw [hsel] at hup
    simp only [Result.ok.injEq] at hup
    subst hup
    refine ⟨?_, map_writeStats_ID _ _⟩
    intro t ht
    obtain ⟨u, hu, rfl⟩ := List.mem_map.1 ht
    unfold writeStats
    split_ifs
    · dsimp only
      rw [bumpStats_Strength]
      exact h row (selectTeam_some hsel).1
    · exact h u hu

/-- The invariant over any sequence of steps: whenever the run returns, the strengths are
in range and the ids are those of the start. -/
theorem runSteps_inRange (steps : List Step) :
    ∀ db db2 : DB, strengthsInRange db → runSteps db steps = .ok db2 →
      strengthsInRange db2 ∧
        db2.teams.map (fun t => t.ID) = db.teams.map (fun t => t.ID) := by
  induction steps with
  | nil =>
    intro db db2 h hrun
    have : db = db2 := by
      have h2 : Result.ok db = Result.ok db2 := hrun
      simpa using h2
    subst this
    exact ⟨h, rfl⟩
  | cons s rest ih =>
    intro db db2 h hrun
    cases s with
    | change body =>
      obtain ⟨h1, h2⟩ := changeStrengthsHandler_keeps body db h
      obtain ⟨h3, h4⟩ := ih _ db2 h1 hrun
      exact ⟨h3, h4.trans h2⟩
    | update teamID gf ga =>
      obtain ⟨db1, hup, hrest⟩ := Result.bind_eq_ok hrun
      obtain ⟨h1, h2⟩ := updateTeamStats_inRange hup h
      obtain ⟨h3, h4⟩ := ih db1 db2 h1 hrest
      exact ⟨h3, h4.trans h2⟩

/-- A sequence of steps on teams 1..4 returns from any registry with these ids. -/
theorem runSteps_returns (steps : List Step) :
    ∀ db : DB, db.teams.map (fun t => t.ID) = [1, 2, 3, 4] →
      (∀ s ∈ steps, s.onSeededTeam) → ∃ db2, runSteps db steps = .ok db2 := by
  induction steps with
  | nil => intro db _ _; exact ⟨db, rfl⟩
  | cons s rest ih =>
    intro db hids hall
    have hrest : ∀ s2 ∈ rest, s2.onSeededTeam := fun s2 h2 =>
      hall s2 (List.mem_cons_of_mem _ h2)
    have hs := hall s (List.mem_cons_self _ _)
    cases s with
    | change body =>
      cases body with
      | none => exact ih db hids hrest
      | some strengths =>
        have hk : ∀ (l : List (String × Int)) (d : DB),
            (l.foldl changeOne d).teams.map (fun t => t.ID) = d.teams.map (fun t => t.ID) := by
          intro l
          induction l with
          | nil => intro d; rfl
          | cons e es ihl => intro d; exact (ihl _).trans (changeOne_ids d e)
        exact ih _ ((hk strengths db).trans hids) hrest
    | update teamID gf ga =>
      have hreg : registered db teamID := by
        rw [registered_iff_mem_ids, hids]
        exact hs
      obtain ⟨db1, hup, _, hids1⟩ := updateTeamStats_returns gf ga hreg
      obtain ⟨db2, h2⟩ := ih db1 (hids1.trans hids) hrest
      refine ⟨db2, ?_⟩
      show (updateTeamStats db teamID gf ga).bind _ = _
      rw [hup]
      exact h2

theorem changeOne_of_invalid (d : DB) (name : String) (strength : Int)
    (h : strength < 1 ∨ strength > 4) : changeOne d (name, strength) = d := by
  unfold changeOne
  rw [if_pos h]

theorem changeOne_keeps_row (d : DB) (e : String × Int) (name : String)
    (hbad : e.1 = name → e.2 < 1 ∨ e.2 > 4) (i : Nat) (t : Team)
    (hi : d.teams[i]? = some t) (hn : t.Name = name) :
    (changeOne d e).teams[i]? = some t := by
  unfold changeOne
  split_ifs with h
  · exact hi
  · have hne : t.Name ≠ e.1 := by
      intro heq
      exact h (hbad (heq.symm.trans hn))
    unfold setStrength
    dsimp only
    rw [List.getElem?_map, hi, Option.map_some', if_neg hne]

/-- A request whose entries for a name are all out of range leaves every row of that name
as it was. -/
theorem invalid_entries_keep_row (strengths : List (String × Int)) (name : String)
    (hbad : ∀ e ∈ strengths, e.1 = name → e.2 < 1 ∨ e.2 > 4) :
    ∀ (d : DB) (i : Nat) (t : Team), d.teams[i]? = some t → t.Name = name →
      (changeStrengthsHandler (some strengths) d).teams[i]? = some t := by
  induction strengths with
  | nil => intro d i t hi _; exact hi
  | cons e es ih =>
    intro d i t hi hn
    have h1 := changeOne_keeps_row d e name (hbad e (List.mem_cons_self _ _)) i t hi hn
    exact ih (fun e2 h2 => hbad e2 (List.mem_cons_of_mem _ h2)) (changeOne d e) i t h1 hn

/-- C11. From the registry seeded by `SeedDatabase`, every sequence of change-strengths
requests (arbitrary integer strengths per team name) and `updateTeamStats` calls on the
seeded teams returns, and in every state such a sequence reaches (and in every state any
returning sequence reaches) every stored strength is in 1..4.  A request entry with
strength below 1 or above 4 is skipped: it leaves the registry as it is, and a request
whose entries for a team are all out of range leaves the rows of that team unchanged. -/
theorem strength_stays_in_range (r : Rand) (steps : List Step)
    (hsteps : ∀ s ∈ steps, s.onSeededTeam) :
    (∃ db, runSteps (SeedDatabase SetupDatabase r).1 steps = .ok db ∧ strengthsInRange db) ∧
    (∀ (steps2 : List Step) (db : DB),
      runSteps (SeedDatabase SetupDatabase r).1 steps2 = .ok db → strengthsInRange db) ∧
    (∀ (d : DB) (name : String) (strength : Int), strength < 1 ∨ strength > 4 →
      changeOne d (name, strength) = d ∧
      changeStrengthsHandler (some [(name, strength)]) d = d) ∧
    (∀ (d : DB) (strengths : List (String × Int)) (name : String),
      (∀ e ∈ strengths, e.1 = name → e.2 < 1 ∨ e.2 > 4) →
      ∀ (i : Nat) (t : Team), d.teams[i]? = some t → t.Name = name →
        (changeStrengthsHandler (some strengths) d).teams[i]? = some t) := by
  refine ⟨?_, ?_, ?_, ?_⟩
  · obtain ⟨db, hrun⟩ := runSteps_returns steps _ (seeded_inv r).ids hsteps
    exact ⟨db, hrun, (runSteps_inRange steps _ db (seeded_inRange r) hrun).1⟩
  · intro steps2 db hrun
    exact (runSteps_inRange steps2 _ db (seeded_inRange r) hrun).1
  · intro d name strength h
    exact ⟨changeOne_of_invalid d name strength h, changeOne_of_invalid d name strength h⟩
  · intro d strengths name hbad
    exact invalid_entries_keep_row strengths name hbad d

/-- C11 on a seeded registry, for a request with the out-of-range strengths 9 and 0 and
the valid strength 4, a match result for teams 1 and 2, and an undecodable request. -/
theorem strength_stays_in_range_witness :
    (∃ db, runSteps (SeedDatabase SetupDatabase seasonStream).1
        [Step.change (some [("Chelsea", 9), ("Arsenal", 4), ("Liverpool", 0)]),
         Step.update 1 2 1, Step.update 2 1 2, Step.change none] = .ok db ∧
      strengthsInRange db) ∧
    (∀ (steps2 : List Step) (db : DB),
      runSteps (SeedDatabase SetupDatabase seasonStream).1 steps2 = .ok db →
        strengthsInRange db) ∧
    (∀ (d : DB) (name : String) (strength : Int), strength < 1 ∨ strength > 4 →
      changeOne d (name, strength) = d ∧
      changeStrengthsHandler (some [(name, strength)]) d = d) ∧
    (∀ (d : DB) (strengths : List (String × Int)) (name : String),
      (∀ e ∈ strengths, e.1 = name → e.2 < 1 ∨ e.2 > 4) →
      ∀ (i : Nat) (t : Team), d.teams[i]? = some t → t.Name = name →
        (changeStrengthsHandler (some strengths) d).teams[i]? = some t) :=
  strength_stays_in_range seasonStream
    [Step.change (some [("Chelsea", 9), ("Arsenal", 4), ("Liverpool", 0)]),
     Step.update 1 2 1, Step.update 2 1 2, Step.change none] (by decide)

/-! ## C12: the sign of the raw probabilities -/

theorem exactProbability_nonneg (points adjusted T : Int) (hp : 0 ≤ points)
    (ha : 0 ≤ adjusted) (hT : 0 < T) : 0 ≤ exactProbability points adjusted T := by
  unfold exactProbability
  have h1 : (0 : ℚ) ≤ ((points + adjusted : Int) : ℚ) := by
    exact_mod_cast Int.add_nonneg hp ha
  have h2 : (0 : ℚ) < (T : ℚ) := by exact_mod_cast hT
  positivity

theorem points_of_sorted_scan (db : DB) (hpts : ∀ t ∈ db.teams, 0 ≤ t.Points) :
    ∀ t ∈ sortTeams (scanStandings db), 0 ≤ t.Points := by
  intro t ht
  have ht2 : t ∈ scanStandings db := (sortTeams_perm _).subset ht
  unfold scanStandings at ht2
  obtain ⟨u, hu, rfl⟩ := List.mem_map.1 ht2
  exact hpts u hu

/-- On a registry within range, with non-negative points and positive totals, no raw and
no normalised probability is negative: a negative value needs the product of line 535 or
537 to wrap. -/
theorem predictions_nonneg_within_range (db : DB) (hr : withinRange db)
    (hpts : ∀ t ∈ db.teams, 0 ≤ t.Points) (htot : 0 < totalPoints db)
    (hgd : 0 < sumPositiveGD db.teams + sumNegativeGD db.teams) :
    ∃ raw, rawPredictions (accPoints (sortTeams (scanStandings db)))
          (accPositiveGD (sortTeams (scanStandings db)))
          (accNegativeGD (sortTeams (scanStandings db)))
          (sortTeams (scanStandings db)) = .ok raw ∧
      predictStandings db = .ok (normalize raw) ∧
      (∀ p ∈ raw, 0 ≤ p.Probability) ∧
      (∀ p ∈ normalize raw, 0 ≤ p.Probability) := by
  obtain ⟨_, _, _, hraw, hpred⟩ := predictStandings_exact db hr (by omega)
  have hrawnn : ∀ p ∈ (sortTeams (scanStandings db)).map (fun t : Team =>
      ({ Name := t.Name,
         Probability := exactProbability t.Points
           (exactAdjusted t.GD (sumPositiveGD db.teams) (sumNegativeGD db.teams))
           (totalPoints db) } : TeamPrediction)), 0 ≤ p.Probability := by
    intro p hp
    obtain ⟨t, ht, rfl⟩ := List.mem_map.1 hp
    exact exactProbability_nonneg _ _ _ (points_of_sorted_scan db hpts t ht)
      (exactAdjusted_nonneg _ _ _ (sumPositiveGD_nonneg _) (sumNegativeGD_nonneg _)) htot
  refine ⟨_, hraw, hpred, hrawnn, ?_⟩
  intro q hq
  unfold normalize at hq
  obtain ⟨p, hp, rfl⟩ := List.mem_map.1 hq
  dsimp only
  have hN : 0 ≤ normalizeFactor ((sortTeams (scanStandings db)).map (fun t : Team =>
      ({ Name := t.Name,
         Probability := exactProbability t.Points
           (exactAdjusted t.GD (sumPositiveGD db.teams) (sumNegativeGD db.teams))
           (totalPoints db) } : TeamPrediction))) := by
    unfold normalizeFactor
    apply List.sum_nonneg
    intro x hx
    obtain ⟨p2, hp2, rfl⟩ := List.mem_map.1 hx
    exact hrawnn p2 hp2
  exact div_nonneg (mul_nonneg (hrawnn p hp) (by norm_num)) hN

/-- C12. There is a team list with non-negative points for every team,
`totalPoints > 0` and `totalPositiveGD + totalNegativeGD > 0` for which
`predictStandings` computes a negative raw probability for a team and returns a negative
normalised probability for it: with points 4000000000 and 0 and goal differences
+3037000500 and -3037000500 the product of line 537 wraps, the team with the very
negative goal difference and no points gets the adjusted goal difference -1518500249,
and both its raw and its returned probability are negative. -/
theorem raw_probability_can_be_negative :
    ∃ db : DB, (∀ t ∈ db.teams, 0 ≤ t.Points) ∧
      0 < accPoints (sortTeams (scanStandings db)) ∧
      0 < goAdd (accPositiveGD (sortTeams (scanStandings db)))
            (accNegativeGD (sortTeams (scanStandings db))) ∧
      adjustedGD (-3037000500) (accPositiveGD (sortTeams (scanStandings db)))
        (accNegativeGD (sortTeams (scanStandings db))) = .ok (-1518500249) ∧
      (rawPredictions (accPoints (sortTeams (scanStandings db)))
          (accPositiveGD (sortTeams (scanStandings db)))
          (accNegativeGD (sortTeams (scanStandings db)))
          (sortTeams (scanStandings db))).map
          (fun raw => raw.map (fun p => (p.Name, decide (p.Probability < 0))))
        = .ok [("Chelsea", false), ("Arsenal", true)] ∧
      (predictStandings db).map
          (fun ps => ps.map (fun p => (p.Name, decide (p.Probability < 0))))
        = .ok [("Chelsea", false), ("Arsenal", true)] := by
  refine ⟨wrapStandings, ?_, ?_, ?_, ?_, ?_, ?_⟩ <;> decide!

end League
